import Mathlib

/-!
Shallow embedding of the cornerlight stealth-game simulation core
(src/game/types.ts, utils.ts, collision.ts, enemyAI.ts, gameLoop.ts,
config.ts), with theorems checking the natural-language specification
against it.

JavaScript numbers are modelled as real numbers; JS objects become
structures, in-place mutation becomes explicit state passing, and
nullable fields become Option.  Audio calls (audioManager.*) are
fire-and-forget signals with no effect on simulation state and are
dropped.  Comparisons on real numbers are undecidable, so definitions
that branch on them use classical decidability and are noncomputable;
the integer Bresenham walk is computable.
-/

open scoped Classical

namespace Cornerlight

/-- A 2D vector with real coordinates (types.ts Vec2). -/
structure Vec2 where
  x : ℝ
  y : ℝ

/-- Tile kinds (types.ts TileType). -/
inductive TileType where
  | FLOOR
  | WALL
  | COVER
  | EXIT
  | SPAWN
  | AMMO
deriving DecidableEq, Repr

/-- The tile grid: row-major, indexed grid[y][x] as in the source. -/
abbrev Grid := List (List TileType)

/-- Player entity (types.ts Player). -/
structure Player where
  pos : Vec2
  angle : ℝ
  isSprinting : Bool
  isSneaking : Bool
  speed : ℝ
  noiseLevel : ℝ
  ammo : ℝ
  maxAmmo : ℝ
  health : ℝ
  maxHealth : ℝ
  shootCooldown : ℝ

/-- The four enemy states (types.ts EnemyState). -/
inductive EnemyState where
  | PATROL
  | INVESTIGATE
  | CHASE
  | RETURN
deriving DecidableEq, Repr

/-- Enemy entity (types.ts Enemy). -/
structure Enemy where
  id : ℕ
  pos : Vec2
  angle : ℝ
  state : EnemyState
  waypoints : List Vec2
  currentWaypointIndex : ℕ
  investigateTarget : Option Vec2
  lastKnownPlayerPos : Option Vec2
  alertLevel : ℝ
  stateTimer : ℝ
  speed : ℝ
  ammo : ℝ
  maxAmmo : ℝ
  health : ℝ
  shootCooldown : ℝ
  isDead : Bool

/-- Game configuration (types.ts GameConfig); the enemyCount min/max
object is flattened into two fields. -/
structure GameConfig where
  gridWidth : ℕ
  gridHeight : ℕ
  tileSize : ℕ
  visionAngle : ℝ
  visionRange : ℝ
  hearingRadius : ℝ
  enemyCountMin : ℕ
  enemyCountMax : ℕ
  playerWalkSpeed : ℝ
  playerSprintSpeed : ℝ
  playerSneakSpeed : ℝ
  enemyPatrolSpeed : ℝ
  enemyChaseSpeed : ℝ
  chaseDuration : ℝ
  seed : ℕ

/-- Bullet entity (types.ts Bullet). -/
structure Bullet where
  id : ℕ
  pos : Vec2
  velocity : Vec2
  isPlayerBullet : Bool
  lifetime : ℝ

/-- Ammo pickup (types.ts AmmoPickup). -/
structure AmmoPickup where
  pos : Vec2
  amount : ℝ
  collected : Bool

/-- Noise marker (types.ts NoiseMarker). -/
structure NoiseMarker where
  pos : Vec2
  radius : ℝ
  lifetime : ℝ
  maxLifetime : ℝ

/-- Per-tick input intent (types.ts InputState). -/
structure InputState where
  up : Bool
  down : Bool
  left : Bool
  right : Bool
  sprint : Bool
  sneak : Bool
  interact : Bool
  shoot : Bool
  mousePos : Vec2
  mouseDown : Bool

/-- The world snapshot (types.ts GameState). -/
structure GameState where
  player : Player
  enemies : List Enemy
  grid : Grid
  config : GameConfig
  isGameOver : Bool
  isWin : Bool
  isPaused : Bool
  debugMode : Bool
  detectionLevel : ℝ
  noiseMarkers : List NoiseMarker
  bullets : List Bullet
  ammoPickups : List AmmoPickup
  nextBulletId : ℕ
  exploredTiles : List (List Bool)

/-- Combat constants (config.ts COMBAT_CONFIG). -/
structure CombatConfig where
  playerStartAmmo : ℝ
  playerMaxAmmo : ℝ
  playerHealth : ℝ
  enemyAmmo : ℝ
  enemyHealth : ℝ
  bulletSpeed : ℝ
  bulletLifetime : ℝ
  shootCooldown : ℝ
  enemyShootCooldown : ℝ
  ammoPickupAmount : ℝ
  ammoDropCountMin : ℝ
  ammoDropCountMax : ℝ

/-- config.ts COMBAT_CONFIG values. -/
def COMBAT_CONFIG : CombatConfig :=
  { playerStartAmmo := 12
    playerMaxAmmo := 24
    playerHealth := 3
    enemyAmmo := 6
    enemyHealth := 1
    bulletSpeed := 15
    bulletLifetime := 2
    shootCooldown := 0.3
    enemyShootCooldown := 0.8
    ammoPickupAmount := 6
    ammoDropCountMin := 4
    ammoDropCountMax := 8 }

/-- config.ts DEFAULT_CONFIG values (seed is runtime-dependent in the
source; fixed to 0 here, it is never read by the simulation core). -/
def DEFAULT_CONFIG : GameConfig :=
  { gridWidth := 24
    gridHeight := 18
    tileSize := 32
    visionAngle := 120
    visionRange := 6
    hearingRadius := 4
    enemyCountMin := 3
    enemyCountMax := 5
    playerWalkSpeed := 3
    playerSprintSpeed := 5.5
    playerSneakSpeed := 1.5
    enemyPatrolSpeed := 1.8
    enemyChaseSpeed := 4
    chaseDuration := 4
    seed := 0 }

/-- utils.ts distance: Euclidean distance. -/
noncomputable def distance (a b : Vec2) : ℝ :=
  Real.sqrt ((b.x - a.x) ^ 2 + (b.y - a.y) ^ 2)

/-- utils.ts normalize: unit vector, zero on zero length. -/
noncomputable def normalize (v : Vec2) : Vec2 :=
  let len := Real.sqrt (v.x ^ 2 + v.y ^ 2)
  if len = 0 then ⟨0, 0⟩ else ⟨v.x / len, v.y / len⟩

/-- Math.atan2 modelled by the complex argument, which agrees with it on
the reals: range (-pi, pi], zero at the origin. -/
noncomputable def atan2 (y x : ℝ) : ℝ := Complex.arg ⟨x, y⟩

/-- utils.ts angleBetween: atan2-based heading from a to b. -/
noncomputable def angleBetween (a b : Vec2) : ℝ :=
  atan2 (b.y - a.y) (b.x - a.x)

/-- First while loop of utils.ts normalizeAngle: subtract 2*pi while the
angle exceeds pi. -/
noncomputable def normAngleUp (a : ℝ) : ℝ :=
  if a > Real.pi then normAngleUp (a - Real.pi * 2) else a
termination_by Nat.ceil ((a - Real.pi) / (2 * Real.pi))
decreasing_by
  rename_i h
  have hpi := Real.pi_pos
  have h1 : 0 < (a - Real.pi) / (2 * Real.pi) := by
    apply div_pos <;> linarith
  have h2 : (a - Real.pi * 2 - Real.pi) / (2 * Real.pi)
      = (a - Real.pi) / (2 * Real.pi) - 1 := by
    field_simp
    ring
  rw [h2]
  have h3 : 1 ≤ Nat.ceil ((a - Real.pi) / (2 * Real.pi)) := by
    rwa [Nat.one_le_ceil_iff]
  have h4 : ((a - Real.pi) / (2 * Real.pi) - 1)
      ≤ (↑(Nat.ceil ((a - Real.pi) / (2 * Real.pi)) - 1) : ℝ) := by
    push_cast [h3]
    have := Nat.le_ceil ((a - Real.pi) / (2 * Real.pi))
    linarith
  calc Nat.ceil ((a - Real.pi) / (2 * Real.pi) - 1)
      ≤ Nat.ceil ((a - Real.pi) / (2 * Real.pi)) - 1 := by
        refine le_trans (Nat.ceil_mono h4) ?_
        rw [Nat.ceil_natCast]
    _ < Nat.ceil ((a - Real.pi) / (2 * Real.pi)) := by omega

/-- Second while loop of utils.ts normalizeAngle: add 2*pi while the
angle is below -pi. -/
noncomputable def normAngleDown (a : ℝ) : ℝ :=
  if a < -Real.pi then normAngleDown (a + Real.pi * 2) else a
termination_by Nat.ceil ((-Real.pi - a) / (2 * Real.pi))
decreasing_by
  rename_i h
  have hpi := Real.pi_pos
  have h1 : 0 < (-Real.pi - a) / (2 * Real.pi) := by
    apply div_pos <;> linarith
  have h2 : (-Real.pi - (a + Real.pi * 2)) / (2 * Real.pi)
      = (-Real.pi - a) / (2 * Real.pi) - 1 := by
    field_simp
    ring
  rw [h2]
  have h3 : 1 ≤ Nat.ceil ((-Real.pi - a) / (2 * Real.pi)) := by
    rwa [Nat.one_le_ceil_iff]
  have h4 : ((-Real.pi - a) / (2 * Real.pi) - 1)
      ≤ (↑(Nat.ceil ((-Real.pi - a) / (2 * Real.pi)) - 1) : ℝ) := by
    push_cast [h3]
    have := Nat.le_ceil ((-Real.pi - a) / (2 * Real.pi))
    linarith
  calc Nat.ceil ((-Real.pi - a) / (2 * Real.pi) - 1)
      ≤ Nat.ceil ((-Real.pi - a) / (2 * Real.pi)) - 1 := by
        refine le_trans (Nat.ceil_mono h4) ?_
        rw [Nat.ceil_natCast]
    _ < Nat.ceil ((-Real.pi - a) / (2 * Real.pi)) := by omega

/-- utils.ts normalizeAngle: both loops in sequence. -/
noncomputable def normalizeAngle (a : ℝ) : ℝ := normAngleDown (normAngleUp a)

/-- utils.ts angleDifference. -/
noncomputable def angleDifference (a b : ℝ) : ℝ := normalizeAngle (b - a)

/-- utils.ts degToRad. -/
noncomputable def degToRad (deg : ℝ) : ℝ := deg * Real.pi / 180

/-- Loop invariant of the Bresenham stepper in utils.ts getLinePoints:
the signed remaining distances sx*(x1-x) and sy*(y1-y) are nonnegative
and bounded by the axis totals dx, dy, the error accumulator is
determined by them, and the step directions are unit steps.  The
invariant holds at the initial call and is maintained by every loop
iteration, which is what makes the source's while(true) loop finite. -/
def bresInv (dx dy sx sy x1 y1 x y err : ℤ) : Prop :=
  0 ≤ sx * (x1 - x) ∧ sx * (x1 - x) ≤ dx ∧
  0 ≤ sy * (y1 - y) ∧ sy * (y1 - y) ≤ dy ∧
  err = dx - dy + sx * (x1 - x) * dy - sy * (y1 - y) * dx ∧
  (sx = 1 ∨ sx = -1) ∧ (sy = 1 ∨ sy = -1) ∧ 0 ≤ dx ∧ 0 ≤ dy

/-- The while(true) loop of utils.ts getLinePoints: push the current
cell, stop at the endpoint, otherwise advance x and/or y by the
accumulated-error rule.  The invariant argument carries exactly the
facts needed for termination. -/
def bresAux (dx dy sx sy x1 y1 x y err : ℤ)
    (hinv : bresInv dx dy sx sy x1 y1 x y err) : List (ℤ × ℤ) :=
  if hxy : x = x1 ∧ y = y1 then [(x, y)]
  else if hx : 2 * err > -dy then
    if hy : 2 * err < dx then
      (x, y) :: bresAux dx dy sx sy x1 y1 (x + sx) (y + sy) (err - dy + dx)
        (by
          obtain ⟨ha0, had, hb0, hbd, herr, hsx, hsy, hdx0, hdy0⟩ := hinv
          have ha1 : 1 ≤ sx * (x1 - x) := by
            rcases lt_or_ge (sx * (x1 - x)) 1 with hlt | hge
            · exfalso
              have haz : sx * (x1 - x) = 0 := le_antisymm (by omega) ha0
              have hxx : x = x1 := by
                rcases hsx with h | h <;> rw [h] at haz <;> omega
              have hyy : y ≠ y1 := fun h => hxy ⟨hxx, h⟩
              have hb1 : 1 ≤ sy * (y1 - y) := by
                rcases hsy with h | h <;> rw [h] at hb0 ⊢ <;> omega
              rw [haz] at herr
              nlinarith [mul_nonneg hdx0 (by omega : (0:ℤ) ≤ sy * (y1 - y) - 1)]
            · exact hge
          have hb1 : 1 ≤ sy * (y1 - y) := by
            rcases lt_or_ge (sy * (y1 - y)) 1 with hlt | hge
            · exfalso
              have hbz : sy * (y1 - y) = 0 := le_antisymm (by omega) hb0
              have hyy : y = y1 := by
                rcases hsy with h | h <;> rw [h] at hbz <;> omega
              have hxx : x ≠ x1 := fun h => hxy ⟨h, hyy⟩
              have ha1 : 1 ≤ sx * (x1 - x) := by
                rcases hsx with h | h <;> rw [h] at ha0 ⊢ <;> omega
              rw [hbz] at herr
              nlinarith [mul_nonneg hdy0 (by omega : (0:ℤ) ≤ sx * (x1 - x) - 1)]
            · exact hge
          have ha' : sx * (x1 - (x + sx)) = sx * (x1 - x) - 1 := by
            rcases hsx with h | h <;> rw [h] <;> ring
          have hb' : sy * (y1 - (y + sy)) = sy * (y1 - y) - 1 := by
            rcases hsy with h | h <;> rw [h] <;> ring
          refine ⟨by omega, by omega, by omega, by omega, ?_, hsx, hsy, hdx0, hdy0⟩
          rw [ha', hb', herr]
          ring)
    else
      (x, y) :: bresAux dx dy sx sy x1 y1 (x + sx) y (err - dy)
        (by
          obtain ⟨ha0, had, hb0, hbd, herr, hsx, hsy, hdx0, hdy0⟩ := hinv
          have ha1 : 1 ≤ sx * (x1 - x) := by
            rcases lt_or_ge (sx * (x1 - x)) 1 with hlt | hge
            · exfalso
              have haz : sx * (x1 - x) = 0 := le_antisymm (by omega) ha0
              have hxx : x = x1 := by
                rcases hsx with h | h <;> rw [h] at haz <;> omega
              have hyy : y ≠ y1 := fun h => hxy ⟨hxx, h⟩
              have hb1 : 1 ≤ sy * (y1 - y) := by
                rcases hsy with h | h <;> rw [h] at hb0 ⊢ <;> omega
              rw [haz] at herr
              nlinarith [mul_nonneg hdx0 (by omega : (0:ℤ) ≤ sy * (y1 - y) - 1)]
            · exact hge
          have ha' : sx * (x1 - (x + sx)) = sx * (x1 - x) - 1 := by
            rcases hsx with h | h <;> rw [h] <;> ring
          refine ⟨by omega, by omega, hb0, hbd, ?_, hsx, hsy, hdx0, hdy0⟩
          rw [ha', herr]
          ring)
  else if hy : 2 * err < dx then
    (x, y) :: bresAux dx dy sx sy x1 y1 x (y + sy) (err + dx)
      (by
        obtain ⟨ha0, had, hb0, hbd, herr, hsx, hsy, hdx0, hdy0⟩ := hinv
        have hb1 : 1 ≤ sy * (y1 - y) := by
          rcases lt_or_ge (sy * (y1 - y)) 1 with hlt | hge
          · exfalso
            have hbz : sy * (y1 - y) = 0 := le_antisymm (by omega) hb0
            have hyy : y = y1 := by
              rcases hsy with h | h <;> rw [h] at hbz <;> omega
            have hxx : x ≠ x1 := fun h => hxy ⟨h, hyy⟩
            have ha1 : 1 ≤ sx * (x1 - x) := by
              rcases hsx with h | h <;> rw [h] at ha0 ⊢ <;> omega
            rw [hbz] at herr
            nlinarith [mul_nonneg hdy0 (by omega : (0:ℤ) ≤ sx * (x1 - x) - 1)]
          · exact hge
        have hb' : sy * (y1 - (y + sy)) = sy * (y1 - y) - 1 := by
          rcases hsy with h | h <;> rw [h] <;> ring
        refine ⟨ha0, had, by omega, by omega, ?_, hsx, hsy, hdx0, hdy0⟩
        rw [hb', herr]
        ring)
  else
    absurd hinv
      (by
        intro hinv'
        obtain ⟨ha0, had, hb0, hbd, herr, hsx, hsy, hdx0, hdy0⟩ := hinv'
        have h1 : dx ≤ 2 * err := by omega
        have h2 : 2 * err ≤ -dy := by omega
        have hdxz : dx = 0 := by omega
        have hdyz : dy = 0 := by omega
        have haz : sx * (x1 - x) = 0 := by omega
        have hbz : sy * (y1 - y) = 0 := by omega
        have hxx : x = x1 := by
          rcases hsx with h | h <;> rw [h] at haz <;> omega
        have hyy : y = y1 := by
          rcases hsy with h | h <;> rw [h] at hbz <;> omega
        exact hxy ⟨hxx, hyy⟩)
termination_by (sx * (x1 - x) + sy * (y1 - y)).toNat
decreasing_by
  · obtain ⟨ha0, had, hb0, hbd, herr, hsx, hsy, hdx0, hdy0⟩ := hinv
    have ha1 : 1 ≤ sx * (x1 - x) := by
      rcases lt_or_ge (sx * (x1 - x)) 1 with hlt | hge
      · exfalso
        have haz : sx * (x1 - x) = 0 := le_antisymm (by omega) ha0
        have hxx : x = x1 := by
          rcases hsx with h | h <;> rw [h] at haz <;> omega
        have hyy : y ≠ y1 := fun h => hxy ⟨hxx, h⟩
        have hb1 : 1 ≤ sy * (y1 - y) := by
          rcases hsy with h | h <;> rw [h] at hb0 ⊢ <;> omega
        rw [haz] at herr
        nlinarith [mul_nonneg hdx0 (by omega : (0:ℤ) ≤ sy * (y1 - y) - 1)]
      · exact hge
    have ha' : sx * (x1 - (x + sx)) = sx * (x1 - x) - 1 := by
      rcases hsx with h | h <;> rw [h] <;> ring
    have hb' : sy * (y1 - (y + sy)) = sy * (y1 - y) - 1 := by
      rcases hsy with h | h <;> rw [h] <;> ring
    rw [ha', hb']
    omega
  · obtain ⟨ha0, had, hb0, hbd, herr, hsx, hsy, hdx0, hdy0⟩ := hinv
    have ha1 : 1 ≤ sx * (x1 - x) := by
      rcases lt_or_ge (sx * (x1 - x)) 1 with hlt | hge
      · exfalso
        have haz : sx * (x1 - x) = 0 := le_antisymm (by omega) ha0
        have hxx : x = x1 := by
          rcases hsx with h | h <;> rw [h] at haz <;> omega
        have hyy : y ≠ y1 := fun h => hxy ⟨hxx, h⟩
        have hb1 : 1 ≤ sy * (y1 - y) := by
          rcases hsy with h | h <;> rw [h] at hb0 ⊢ <;> omega
        rw [haz] at herr
        nlinarith [mul_nonneg hdx0 (by omega : (0:ℤ) ≤ sy * (y1 - y) - 1)]
      · exact hge
    have ha' : sx * (x1 - (x + sx)) = sx * (x1 - x) - 1 := by
      rcases hsx with h | h <;> rw [h] <;> ring
    rw [ha']
    omega
  · obtain ⟨ha0, had, hb0, hbd, herr, hsx, hsy, hdx0, hdy0⟩ := hinv
    have hb1 : 1 ≤ sy * (y1 - y) := by
      rcases lt_or_ge (sy * (y1 - y)) 1 with hlt | hge
      · exfalso
        have hbz : sy * (y1 - y) = 0 := le_antisymm (by omega) hb0
        have hyy : y = y1 := by
          rcases hsy with h | h <;> rw [h] at hbz <;> omega
        have hxx : x ≠ x1 := fun h => hxy ⟨h, hyy⟩
        have ha1 : 1 ≤ sx * (x1 - x) := by
          rcases hsx with h | h <;> rw [h] at ha0 ⊢ <;> omega
        rw [hbz] at herr
        nlinarith [mul_nonneg hdy0 (by omega : (0:ℤ) ≤ sx * (x1 - x) - 1)]
      · exact hge
    have hb' : sy * (y1 - (y + sy)) = sy * (y1 - y) - 1 := by
      rcases hsy with h | h <;> rw [h] <;> ring
    rw [hb']
    omega

/-- utils.ts getLinePoints: Bresenham cells from (x0,y0) to (x1,y1).
The source floors its endpoints before calling this, so the arguments
are integers. -/
def getLinePoints (x0 y0 x1 y1 : ℤ) : List (ℤ × ℤ) :=
  bresAux |x1 - x0| |y1 - y0| (if x0 < x1 then 1 else -1) (if y0 < y1 then 1 else -1)
    x1 y1 x0 y0 (|x1 - x0| - |y1 - y0|)
    (by
      have hax : (if x0 < x1 then (1:ℤ) else -1) * (x1 - x0) = |x1 - x0| := by
        rcases lt_or_ge x0 x1 with h | h
        · rw [if_pos h, abs_of_pos (by omega)]
          ring
        · rw [if_neg (by omega), abs_of_nonpos (by omega)]
          ring
      have hay : (if y0 < y1 then (1:ℤ) else -1) * (y1 - y0) = |y1 - y0| := by
        rcases lt_or_ge y0 y1 with h | h
        · rw [if_pos h, abs_of_pos (by omega)]
          ring
        · rw [if_neg (by omega), abs_of_nonpos (by omega)]
          ring
      refine ⟨by rw [hax]; exact abs_nonneg _, le_of_eq hax,
        by rw [hay]; exact abs_nonneg _, le_of_eq hay, ?_, ?_, ?_,
        abs_nonneg _, abs_nonneg _⟩
      · rw [hax, hay]
        ring
      · rcases lt_or_ge x0 x1 with h | h
        · left
          rw [if_pos h]
        · right
          rw [if_neg (by omega)]
      · rcases lt_or_ge y0 y1 with h | h
        · left
          rw [if_pos h]
        · right
          rw [if_neg (by omega)])

/-- Length of the first grid row; the source indexes grid[0].length. -/
def rowLen (grid : Grid) : ℕ := (grid.headD []).length

/-- Tile lookup grid[y][x].  Meaningful only inside the bounds that the
source always checks before indexing; the default is arbitrary. -/
def gridGet (grid : Grid) (y x : ℤ) : TileType :=
  (grid.getD y.toNat []).getD x.toNat TileType.FLOOR

/-- collision.ts isWalkable: floor the coordinates; false when out of
bounds or on a wall tile. -/
def isWalkable (grid : Grid) (x y : ℝ) : Prop :=
  0 ≤ ⌊y⌋ ∧ ⌊y⌋ < (grid.length : ℤ) ∧ 0 ≤ ⌊x⌋ ∧ ⌊x⌋ < (rowLen grid : ℤ) ∧
    gridGet grid ⌊y⌋ ⌊x⌋ ≠ TileType.WALL

/-- collision.ts canMoveTo: all four corners of the radius bounding
square around the target position are walkable.  The fromPos argument
is present but unused, as in the source. -/
def canMoveTo (grid : Grid) (fromPos toPos : Vec2) (radius : ℝ) : Prop :=
  ∀ o ∈ [(⟨-radius, -radius⟩ : Vec2), ⟨radius, -radius⟩,
      ⟨-radius, radius⟩, ⟨radius, radius⟩],
    isWalkable grid (toPos.x + o.x) (toPos.y + o.y)

/-- collision.ts hasLineOfSight: no intermediate Bresenham cell between
the two tile positions is a wall or cover; cells outside the grid do not
block. -/
def hasLineOfSight (grid : Grid) (a b : Vec2) : Prop :=
  ∀ p ∈ ((getLinePoints ⌊a.x⌋ ⌊a.y⌋ ⌊b.x⌋ ⌊b.y⌋).drop 1).dropLast,
    (0 ≤ p.2 ∧ p.2 < (grid.length : ℤ) ∧ 0 ≤ p.1 ∧ p.1 < (rowLen grid : ℤ)) →
      gridGet grid p.2 p.1 ≠ TileType.WALL ∧ gridGet grid p.2 p.1 ≠ TileType.COVER

/-- collision.ts resolveCollision: try the full move, then the
horizontal-only move, then the vertical-only move, else stay. -/
noncomputable def resolveCollision (grid : Grid) (fromPos toPos : Vec2)
    (radius : ℝ) : Vec2 :=
  if canMoveTo grid fromPos toPos radius then toPos
  else if canMoveTo grid fromPos ⟨toPos.x, fromPos.y⟩ radius then ⟨toPos.x, fromPos.y⟩
  else if canMoveTo grid fromPos ⟨fromPos.x, toPos.y⟩ radius then ⟨fromPos.x, toPos.y⟩
  else fromPos

/-- Result record of enemyAI.ts updateEnemy; the source mutates the
enemy in place, made explicit here as a returned enemy. -/
structure EnemyUpdate where
  enemy : Enemy
  detected : Prop
  alertLevel : ℝ
  shouldShoot : Prop

/-- Effective vision range (enemyAI.ts): sneaking scales the configured
range by 0.6. -/
noncomputable def effectiveVisionRange (player : Player) (config : GameConfig) : ℝ :=
  if player.isSneaking then config.visionRange * 0.6 else config.visionRange

/-- Vision-cone test of enemyAI.ts updateEnemy: within effective range,
within half the vision angle of the facing, and clear line of sight. -/
noncomputable def inVisionCone (enemy : Enemy) (player : Player) (grid : Grid)
    (config : GameConfig) : Prop :=
  distance enemy.pos player.pos ≤ effectiveVisionRange player config ∧
  |angleDifference enemy.angle (angleBetween enemy.pos player.pos)|
      ≤ degToRad (config.visionAngle / 2) ∧
  hasLineOfSight grid enemy.pos player.pos

/-- Effective hearing range (enemyAI.ts): 150% of the configured radius
when sprinting, 30% when sneaking, 100% otherwise. -/
noncomputable def hearingRange (player : Player) (config : GameConfig) : ℝ :=
  if player.isSprinting then config.hearingRadius * 1.5
  else if player.isSneaking then config.hearingRadius * 0.3
  else config.hearingRadius

/-- Hearing test of enemyAI.ts updateEnemy: within hearing range and the
player is emitting noise. -/
noncomputable def canHear (enemy : Enemy) (player : Player) (config : GameConfig) : Prop :=
  distance enemy.pos player.pos ≤ hearingRange player config ∧ player.noiseLevel > 0

/-- The noise-marker scan of enemyAI.ts updateEnemy: fold over the
markers keeping the nearest one within the base hearing radius, together
with its distance.  The initial best distance Infinity of the source
becomes the none accumulator. -/
noncomputable def closestNoiseScan (epos : Vec2) (hr : ℝ) :
    List NoiseMarker → Option (Vec2 × ℝ) → Option (Vec2 × ℝ)
  | [], acc => acc
  | n :: rest, acc =>
    let noiseDist := distance epos n.pos
    match acc with
    | none =>
      if noiseDist ≤ hr then closestNoiseScan epos hr rest (some (n.pos, noiseDist))
      else closestNoiseScan epos hr rest none
    | some best =>
      if noiseDist ≤ hr ∧ noiseDist < best.2 then
        closestNoiseScan epos hr rest (some (n.pos, noiseDist))
      else closestNoiseScan epos hr rest (some best)

/-- Nearest noise marker within the enemy's base hearing radius. -/
noncomputable def closestNoise (enemy : Enemy) (config : GameConfig)
    (noiseMarkers : List NoiseMarker) : Option (Vec2 × ℝ) :=
  closestNoiseScan enemy.pos config.hearingRadius noiseMarkers none

/-- The alert-level update of enemyAI.ts updateEnemy (the three-way
priority cascade followed by the cap at 100).  The percept values are
passed in, mirroring the source locals. -/
noncomputable def alertUpdate (e : Enemy) (player : Player) (dt : ℝ)
    (inCone hears : Prop) (closest : Option (Vec2 × ℝ)) : Enemy :=
  let e1 :=
    if inCone then
      { e with alertLevel := e.alertLevel + 100 / (if player.isSneaking then 2 else 0.8) * dt,
               lastKnownPlayerPos := some player.pos }
    else if hears ∨ closest.isSome then
      { e with alertLevel := e.alertLevel + 30 * dt,
               investigateTarget := some (match closest with
                 | some best => best.1
                 | none => player.pos) }
    else
      { e with alertLevel := max 0 (e.alertLevel - 15 * dt) }
  { e1 with alertLevel := min 100 e1.alertLevel }

/-- enemyAI.ts moveToward: face the target when the direction is
nonzero, then advance by speed and resolve collision with radius 0.35. -/
noncomputable def moveToward (e : Enemy) (target : Vec2) (grid : Grid) (dt : ℝ) : Enemy :=
  let direction := normalize ⟨target.x - e.pos.x, target.y - e.pos.y⟩
  let e1 := if direction.x ≠ 0 ∨ direction.y ≠ 0
            then { e with angle := angleBetween e.pos target } else e
  let newPos : Vec2 := ⟨e1.pos.x + direction.x * e1.speed * dt,
                        e1.pos.y + direction.y * e1.speed * dt⟩
  { e1 with pos := resolveCollision grid e1.pos newPos 0.35 }

/-- enemyAI.ts patrolBehavior: walk to the current waypoint, advancing
cyclically on arrival (distance below 0.5). -/
noncomputable def patrolBehavior (e : Enemy) (grid : Grid) (dt : ℝ) : Enemy :=
  if e.waypoints.length = 0 then e
  else
    let target := e.waypoints.getD e.currentWaypointIndex ⟨0, 0⟩
    let e1 := moveToward e target grid dt
    if distance e1.pos target < 0.5 then
      { e1 with currentWaypointIndex := (e1.currentWaypointIndex + 1) % e1.waypoints.length }
    else e1

/-- enemyAI.ts investigateBehavior: walk to the investigate target and
rotate in place once arrived. -/
noncomputable def investigateBehavior (e : Enemy) (grid : Grid) (dt : ℝ) : Enemy :=
  match e.investigateTarget with
  | none => e
  | some target =>
    let e1 := moveToward e target grid dt
    if distance e1.pos target < 0.5 then { e1 with angle := e1.angle + dt * 2 } else e1

/-- enemyAI.ts chaseBehavior: walk toward the last known player position,
falling back to the live player position. -/
noncomputable def chaseBehavior (e : Enemy) (player : Player) (grid : Grid) (dt : ℝ) : Enemy :=
  moveToward e (e.lastKnownPlayerPos.getD player.pos) grid dt

/-- enemyAI.ts returnBehavior: walk back to the first waypoint; the flag
reports arrival (trivially true with no waypoints). -/
noncomputable def returnBehavior (e : Enemy) (grid : Grid) (dt : ℝ) : Enemy × Prop :=
  if e.waypoints.length = 0 then (e, True)
  else
    let target := e.waypoints.getD 0 ⟨0, 0⟩
    let e1 := moveToward e target grid dt
    (e1, distance e1.pos target < 0.5)

/-- The state-machine switch of enemyAI.ts updateEnemy, applied after
the alert update.  inCone and distToPlayer mirror the source locals. -/
noncomputable def enemyFSM (e : Enemy) (player : Player) (grid : Grid)
    (config : GameConfig) (dt : ℝ) (inCone : Prop) (distToPlayer : ℝ) : Enemy × Prop :=
  match e.state with
  | EnemyState.PATROL =>
    if e.alertLevel ≥ 100 then
      ({ e with state := EnemyState.CHASE, stateTimer := config.chaseDuration,
                speed := config.enemyChaseSpeed }, False)
    else if e.alertLevel ≥ 40 then
      ({ e with state := EnemyState.INVESTIGATE, stateTimer := 3 }, False)
    else (patrolBehavior e grid dt, False)
  | EnemyState.INVESTIGATE =>
    let e1 := { e with stateTimer := e.stateTimer - dt }
    if e1.alertLevel ≥ 100 then
      ({ e1 with state := EnemyState.CHASE, stateTimer := config.chaseDuration,
                 speed := config.enemyChaseSpeed }, False)
    else if e1.stateTimer ≤ 0 ∨ e1.alertLevel < 10 then
      ({ e1 with state := EnemyState.RETURN, investigateTarget := none }, False)
    else (investigateBehavior e1 grid dt, False)
  | EnemyState.CHASE =>
    let e1 := { e with stateTimer := e.stateTimer - dt }
    let e2 := if inCone then { e1 with stateTimer := config.chaseDuration } else e1
    let shoot := inCone ∧ distToPlayer ≤ 8 ∧ e2.ammo > 0 ∧ e2.shootCooldown ≤ 0
    if e2.stateTimer ≤ 0 then
      ({ e2 with state := EnemyState.RETURN, speed := config.enemyPatrolSpeed,
                 alertLevel := 30 }, shoot)
    else (chaseBehavior e2 player grid dt, shoot)
  | EnemyState.RETURN =>
    if e.alertLevel ≥ 60 then
      ({ e with state := EnemyState.INVESTIGATE, stateTimer := 3 }, False)
    else
      let r := returnBehavior e grid dt
      let back := { r.1 with state := EnemyState.PATROL, speed := config.enemyPatrolSpeed }
      (if r.2 then back else r.1, False)

/-- enemyAI.ts updateEnemy: no-op on dead enemies, else decay the shoot
cooldown, run the perception tests, the alert update, and the state
machine.  The unused gameState parameter of the source is omitted. -/
noncomputable def updateEnemy (enemy : Enemy) (player : Player) (grid : Grid)
    (config : GameConfig) (deltaTime : ℝ) (noiseMarkers : List NoiseMarker) : EnemyUpdate :=
  if enemy.isDead then ⟨enemy, False, 0, False⟩
  else
    let e1 := { enemy with shootCooldown := max 0 (enemy.shootCooldown - deltaTime) }
    let distToPlayer := distance e1.pos player.pos
    let inCone := inVisionCone e1 player grid config
    let hears := canHear e1 player config
    let closest := closestNoise e1 config noiseMarkers
    let e2 := alertUpdate e1 player deltaTime inCone hears closest
    let r := enemyFSM e2 player grid config deltaTime inCone distToPlayer
    ⟨r.1, inCone, r.1.alertLevel, r.2⟩

/-- gameLoop.ts playerShoot: spend one ammo, reset the player cooldown,
spawn a player bullet at full bullet speed and a noise marker of
radius 6 at the player position. -/
noncomputable def playerShoot (state : GameState) : GameState :=
  let player := state.player
  let p1 := { player with ammo := player.ammo - 1,
                          shootCooldown := COMBAT_CONFIG.shootCooldown }
  let bullet : Bullet :=
    ⟨state.nextBulletId, p1.pos,
     ⟨Real.cos p1.angle * COMBAT_CONFIG.bulletSpeed,
      Real.sin p1.angle * COMBAT_CONFIG.bulletSpeed⟩,
     true, COMBAT_CONFIG.bulletLifetime⟩
  { state with player := p1, nextBulletId := state.nextBulletId + 1,
               bullets := state.bullets ++ [bullet],
               noiseMarkers := state.noiseMarkers ++ [⟨p1.pos, 6, 1.5, 1.5⟩] }

/-- gameLoop.ts updatePlayer: cooldown decay, movement-mode flags,
normalized directional movement with collision radius 0.3, noise level,
distraction throw, and the shoot action.  The source also clears the
edge-triggered input flags it consumes; input is read-only here and
nothing later in a tick reads those flags again. -/
noncomputable def updatePlayer (state : GameState) (input : InputState)
    (deltaTime : ℝ) : GameState :=
  let config := state.config
  let p0 := state.player
  let p1 := { p0 with shootCooldown := max 0 (p0.shootCooldown - deltaTime) }
  let isSpr := input.sprint && !input.sneak
  let isSne := input.sneak && !input.sprint
  let speed : ℝ := if isSpr then config.playerSprintSpeed
                   else if isSne then config.playerSneakSpeed
                   else config.playerWalkSpeed
  let noise : ℝ := if isSpr then 1 else if isSne then 0 else 0.3
  let p2 := { p1 with isSprinting := isSpr, isSneaking := isSne, noiseLevel := noise }
  let dx0 : ℝ := (if input.right then (1:ℝ) else 0) - (if input.left then (1:ℝ) else 0)
  let dy0 : ℝ := (if input.down then (1:ℝ) else 0) - (if input.up then (1:ℝ) else 0)
  let len := Real.sqrt (dx0 * dx0 + dy0 * dy0)
  let dx := if dx0 ≠ 0 ∧ dy0 ≠ 0 then dx0 / len else dx0
  let dy := if dx0 ≠ 0 ∧ dy0 ≠ 0 then dy0 / len else dy0
  let newPos : Vec2 := ⟨p2.pos.x + dx * speed * deltaTime, p2.pos.y + dy * speed * deltaTime⟩
  let p3 := if dx ≠ 0 ∨ dy ≠ 0
            then { p2 with pos := resolveCollision state.grid p2.pos newPos 0.3 }
            else { p2 with noiseLevel := 0 }
  let s1 := { state with player := p3 }
  let thrown : NoiseMarker :=
    ⟨⟨p3.pos.x + Real.cos p3.angle * 3, p3.pos.y + Real.sin p3.angle * 3⟩, 2, 2, 2⟩
  let s2 := if input.interact then { s1 with noiseMarkers := s1.noiseMarkers ++ [thrown] }
            else s1
  if input.shoot ∧ s2.player.ammo > 0 ∧ s2.player.shootCooldown ≤ 0
  then playerShoot s2 else s2

/-- gameLoop.ts enemyShoot: spend one ammo, reset the enemy cooldown,
spawn an enemy bullet at 80% bullet speed and a noise marker of radius 4. -/
noncomputable def enemyShoot (state : GameState) (e : Enemy) : Enemy × GameState :=
  let e1 := { e with ammo := e.ammo - 1,
                     shootCooldown := COMBAT_CONFIG.enemyShootCooldown }
  let bullet : Bullet :=
    ⟨state.nextBulletId, e1.pos,
     ⟨Real.cos e1.angle * COMBAT_CONFIG.bulletSpeed * 0.8,
      Real.sin e1.angle * COMBAT_CONFIG.bulletSpeed * 0.8⟩,
     false, COMBAT_CONFIG.bulletLifetime⟩
  (e1, { state with nextBulletId := state.nextBulletId + 1,
                    bullets := state.bullets ++ [bullet],
                    noiseMarkers := state.noiseMarkers ++ [⟨e1.pos, 4, 1, 1⟩] })

/-- The enemy-hit scan of gameLoop.ts updateBullets for a player bullet:
walk the enemies in order, skip dead ones, damage the first within 0.4,
mark it dead and emit an ammo-pickup drop when its health reaches 0, and
stop at the first hit.  Returns the new enemy list, the pickups to
append, and whether a hit occurred. -/
noncomputable def enemyHitScan (bpos : Vec2) :
    List Enemy → List Enemy × List AmmoPickup × Bool
  | [] => ([], [], false)
  | e :: rest =>
    if e.isDead then
      let r := enemyHitScan bpos rest
      (e :: r.1, r.2.1, r.2.2)
    else if distance bpos e.pos < 0.4 then
      let e1 := { e with health := e.health - 1 }
      if e1.health ≤ 0 then
        ({ e1 with isDead := true } :: rest,
         [⟨e1.pos, ((⌊e1.ammo / 2⌋ : ℤ) : ℝ) + 2, false⟩], true)
      else (e1 :: rest, [], true)
    else
      let r := enemyHitScan bpos rest
      (e :: r.1, r.2.1, r.2.2)

/-- The loop body of gameLoop.ts updateBullets for one bullet: advance,
destroy on a non-walkable tile or expired lifetime, else resolve the
first entity hit.  Returns the surviving bullet (if any) and the state. -/
noncomputable def bulletStep (st : GameState) (dt : ℝ) (b : Bullet) :
    List Bullet × GameState :=
  let b1 := { b with pos := ⟨b.pos.x + b.velocity.x * dt, b.pos.y + b.velocity.y * dt⟩,
                     lifetime := b.lifetime - dt }
  if ¬ isWalkable st.grid ((⌊b1.pos.x⌋ : ℤ) : ℝ) ((⌊b1.pos.y⌋ : ℤ) : ℝ) then ([], st)
  else if b1.lifetime ≤ 0 then ([], st)
  else if b1.isPlayerBullet then
    let r := enemyHitScan b1.pos st.enemies
    if r.2.2 then ([], { st with enemies := r.1, ammoPickups := st.ammoPickups ++ r.2.1 })
    else ([b1], st)
  else
    if distance b1.pos st.player.pos < 0.35 then
      let h := st.player.health - 1
      ([], { st with player := { st.player with health := h },
                     isGameOver := if h ≤ 0 then true else st.isGameOver })
    else ([b1], st)

/-- The reverse-index iteration of gameLoop.ts updateBullets: the bullet
at the highest index is processed first, removal keeps the relative
order of the remaining bullets. -/
noncomputable def bulletsLoop (dt : ℝ) : List Bullet → GameState → List Bullet × GameState
  | [], st => ([], st)
  | b :: rest, st =>
    let r := bulletsLoop dt rest st
    let s := bulletStep r.2 dt b
    (s.1 ++ r.1, s.2)

/-- gameLoop.ts updateBullets. -/
noncomputable def updateBullets (st : GameState) (dt : ℝ) : GameState :=
  let r := bulletsLoop dt st.bullets st
  { r.2 with bullets := r.1 }

/-- The per-enemy loop of gameLoop.ts updateGame: skip dead enemies, run
updateEnemy, track the maximum alert level, fire on a shoot intent (with
the redundant ammo/cooldown recheck of the source), then apply the melee
catch rule: a live enemy within 0.8 of the player at alert 100 deals one
contact damage, setting game over at zero health. -/
noncomputable def enemyLoop (dt : ℝ) :
    List Enemy → GameState → ℝ → List Enemy × GameState × ℝ
  | [], st, md => ([], st, md)
  | e :: rest, st, md =>
    if e.isDead then
      let r := enemyLoop dt rest st md
      (e :: r.1, r.2)
    else
      let u := updateEnemy e st.player st.grid st.config dt st.noiseMarkers
      let md1 := max md u.alertLevel
      let es := if u.shouldShoot ∧ u.enemy.ammo > 0 ∧ u.enemy.shootCooldown ≤ 0
                then enemyShoot st u.enemy else (u.enemy, st)
      let e2 := es.1
      let st1 := es.2
      let st2 := if distance e2.pos st1.player.pos < 0.8 ∧ e2.alertLevel ≥ 100 then
          let h := st1.player.health - 1
          { st1 with player := { st1.player with health := h },
                     isGameOver := if h ≤ 0 then true else st1.isGameOver }
        else st1
      let r := enemyLoop dt rest st2 md1
      (e2 :: r.1, r.2)

/-- The win condition of gameLoop.ts updateGame step 6: the player tile
is in bounds and is the Exit tile, and every enemy is dead. -/
def winCondition (st : GameState) : Prop :=
  0 ≤ ⌊st.player.pos.y⌋ ∧ ⌊st.player.pos.y⌋ < (st.grid.length : ℤ) ∧
  0 ≤ ⌊st.player.pos.x⌋ ∧ ⌊st.player.pos.x⌋ < (rowLen st.grid : ℤ) ∧
  gridGet st.grid ⌊st.player.pos.y⌋ ⌊st.player.pos.x⌋ = TileType.EXIT ∧
  st.enemies.all (fun e => e.isDead) = true

/-- The win evaluation of gameLoop.ts updateGame. -/
noncomputable def winCheck (st : GameState) : GameState :=
  if winCondition st then { st with isWin := true } else st

/-- The ammo-pickup loop of gameLoop.ts updateGame step 7: each
uncollected pickup within 0.7 of the player is collected and refills
ammo up to the maximum, sequentially. -/
noncomputable def pickupLoop : List AmmoPickup → Player → List AmmoPickup × Player
  | [], p => ([], p)
  | pk :: rest, p =>
    if pk.collected then
      let r := pickupLoop rest p
      (pk :: r.1, r.2)
    else if distance p.pos pk.pos < 0.7 then
      let p1 := { p with ammo := min (p.ammo + pk.amount) p.maxAmmo }
      let r := pickupLoop rest p1
      ({ pk with collected := true } :: r.1, r.2)
    else
      let r := pickupLoop rest p
      (pk :: r.1, r.2)

/-- Noise-marker decay and pruning of gameLoop.ts updateGame step 3. -/
noncomputable def noisePhase (st : GameState) (dt : ℝ) : GameState :=
  let decayed := st.noiseMarkers.map (fun n => { n with lifetime := n.lifetime - dt })
  { st with noiseMarkers := decayed.filter (fun n => decide (n.lifetime > 0)) }

/-- The enemy loop of gameLoop.ts updateGame step 5, including the
global detection aggregate. -/
noncomputable def enemyPhase (st : GameState) (dt : ℝ) : GameState :=
  let el := enemyLoop dt st.enemies st 0
  { el.2.1 with enemies := el.1, detectionLevel := el.2.2 }

/-- The ammo-pickup pass of gameLoop.ts updateGame step 7. -/
noncomputable def pickupPhase (st : GameState) : GameState :=
  let pk := pickupLoop st.ammoPickups st.player
  { st with ammoPickups := pk.1, player := pk.2 }

/-- gameLoop.ts updateGame: the whole tick.  Skips everything when
paused or a terminal flag is set; otherwise player update, noise decay,
bullets, the enemy loop with the detection aggregate, win evaluation,
and ammo pickups, in source order. -/
noncomputable def updateGame (state : GameState) (input : InputState)
    (deltaTime : ℝ) : GameState :=
  if state.isPaused ∨ state.isGameOver ∨ state.isWin then state
  else
    pickupPhase (winCheck (enemyPhase
      (updateBullets (noisePhase (updatePlayer state input deltaTime) deltaTime) deltaTime)
      deltaTime))

/-- Spec-side reading of section 4.2: the four corners of the radius
bounding square around a position are all walkable.  Stated from the
specification text, to be compared with canMoveTo. -/
def cornersWalkable (grid : Grid) (p : Vec2) (radius : ℝ) : Prop :=
  isWalkable grid (p.x - radius) (p.y - radius) ∧
  isWalkable grid (p.x + radius) (p.y - radius) ∧
  isWalkable grid (p.x - radius) (p.y + radius) ∧
  isWalkable grid (p.x + radius) (p.y + radius)

/-- A 3x3 all-floor test level with the exit tile at (2,2). -/
def gridTest : Grid :=
  [[TileType.FLOOR, TileType.FLOOR, TileType.FLOOR],
   [TileType.FLOOR, TileType.FLOOR, TileType.FLOOR],
   [TileType.FLOOR, TileType.FLOOR, TileType.EXIT]]

/-- A 1x6 all-floor corridor, for line-of-sight tests at range 5. -/
def gridCorridor : Grid :=
  [[TileType.FLOOR, TileType.FLOOR, TileType.FLOOR,
    TileType.FLOOR, TileType.FLOOR, TileType.EXIT]]

/-- A 2x2 level whose right column is wall, for sliding-collision tests. -/
def gridSlide : Grid :=
  [[TileType.FLOOR, TileType.WALL],
   [TileType.FLOOR, TileType.WALL]]

/-- A concrete player standing still on the exit tile of gridTest. -/
def basePlayer : Player :=
  { pos := ⟨2.5, 2.5⟩, angle := 0, isSprinting := false, isSneaking := false,
    speed := 3, noiseLevel := 0, ammo := 12, maxAmmo := 24, health := 3,
    maxHealth := 3, shootCooldown := 0 }

/-- A concrete live patrol enemy with one health point and six ammo. -/
def baseEnemy : Enemy :=
  { id := 1, pos := ⟨1.5, 1.5⟩, angle := 0, state := EnemyState.PATROL,
    waypoints := [], currentWaypointIndex := 0, investigateTarget := none,
    lastKnownPlayerPos := none, alertLevel := 0, stateTimer := 0, speed := 1.8,
    ammo := 6, maxAmmo := 6, health := 1, shootCooldown := 0, isDead := false }

/-- A dead enemy. -/
def deadEnemy : Enemy := { baseEnemy with id := 0, pos := ⟨0.5, 0.5⟩, health := 0, isDead := true }

/-- A fully alerted chasing enemy out of ammo, sitting on the player. -/
def meleeEnemy : Enemy :=
  { baseEnemy with state := EnemyState.CHASE, alertLevel := 100, stateTimer := 4,
                   speed := 4, ammo := 0 }

/-- An enemy guarding the left end of the corridor, facing right. -/
def sentryEnemy : Enemy := { baseEnemy with pos := ⟨0.5, 0.5⟩ }

/-- A walking player at the far end of the corridor, distance 5 from the
sentry. -/
def walkPlayer : Player := { basePlayer with pos := ⟨5.5, 0.5⟩ }

/-- The same player sneaking. -/
def sneakPlayer : Player := { walkPlayer with isSneaking := true }

/-- No input at all. -/
def idleInput : InputState :=
  { up := false, down := false, left := false, right := false, sprint := false,
    sneak := false, interact := false, shoot := false, mousePos := ⟨0, 0⟩,
    mouseDown := false }

/-- A quiescent world: the player stands on the exit of gridTest and the
only enemy is dead. -/
def baseState : GameState :=
  { player := basePlayer, enemies := [deadEnemy], grid := gridTest,
    config := DEFAULT_CONFIG, isGameOver := false, isWin := false,
    isPaused := false, debugMode := false, detectionLevel := 0,
    noiseMarkers := [], bullets := [], ammoPickups := [], nextBulletId := 0,
    exploredTiles := [] }

/-- The quiescent world, paused. -/
def pausedState : GameState := { baseState with isPaused := true }

/-- A player with one health point standing on the tile of meleeEnemy. -/
def meleePlayer : Player := { basePlayer with pos := ⟨1.5, 1.5⟩, health := 1 }

/-- Two fully alerted enemies standing on a player with one health
point: both melee hits land in the same tick. -/
def meleeState : GameState :=
  { baseState with player := meleePlayer,
                   enemies := [meleeEnemy, { meleeEnemy with id := 2 }] }

/-- A player with one health on the exit tile, every enemy dead, and an
enemy bullet one tick away from the player. -/
def exitBulletState : GameState :=
  { baseState with player := { basePlayer with health := 1 },
                   bullets := [⟨0, ⟨1.3, 2.5⟩, ⟨12, 0⟩, false, 1⟩] }

/-- A player bullet one hundredth of a second from hitting baseEnemy. -/
def hitBullet : Bullet := ⟨0, ⟨1.35, 1.5⟩, ⟨15, 0⟩, true, 2⟩

/-- A world whose only enemy is baseEnemy, target of hitBullet. -/
def shotState : GameState :=
  { baseState with player := { basePlayer with pos := ⟨0.5, 0.5⟩ },
                   enemies := [baseEnemy] }

/-- The expected state after the enemy bullet of exitBulletState hits:
the player is at zero health and the loss flag is set. -/
def exitHitState : GameState :=
  { baseState with player := { basePlayer with health := 0 }, isGameOver := true }

/-! Theorems.  Helper lemmas first, then one named theorem per claim
(with witnesses and counterexamples where required). -/

theorem normAngleUp_le (a : ℝ) : normAngleUp a ≤ Real.pi := by
  induction a using normAngleUp.induct with
  | case1 a h ih =>
    rw [normAngleUp, if_pos h]
    exact ih
  | case2 a h =>
    rw [normAngleUp, if_neg h]
    exact not_lt.mp h

theorem normAngleUp_congr (a : ℝ) : ∃ k : ℤ, normAngleUp a = a - 2 * Real.pi * k := by
  induction a using normAngleUp.induct with
  | case1 a h ih =>
    obtain ⟨k, hk⟩ := ih
    refine ⟨k + 1, ?_⟩
    rw [normAngleUp, if_pos h, hk]
    push_cast
    ring
  | case2 a h =>
    refine ⟨0, ?_⟩
    rw [normAngleUp, if_neg h]
    push_cast
    ring

theorem normAngleDown_ge (a : ℝ) : -Real.pi ≤ normAngleDown a := by
  induction a using normAngleDown.induct with
  | case1 a h ih =>
    rw [normAngleDown, if_pos h]
    exact ih
  | case2 a h =>
    rw [normAngleDown, if_neg h]
    exact not_lt.mp h

theorem normAngleDown_le_max (a : ℝ) : normAngleDown a ≤ max a Real.pi := by
  induction a using normAngleDown.induct with
  | case1 a h ih =>
    rw [normAngleDown, if_pos h]
    refine le_trans ih (le_trans (le_of_eq (max_eq_right ?_)) (le_max_right _ _))
    have := Real.pi_pos
    linarith
  | case2 a h =>
    rw [normAngleDown, if_neg h]
    exact le_max_left _ _

theorem normAngleDown_congr (a : ℝ) : ∃ k : ℤ, normAngleDown a = a + 2 * Real.pi * k := by
  induction a using normAngleDown.induct with
  | case1 a h ih =>
    obtain ⟨k, hk⟩ := ih
    refine ⟨k + 1, ?_⟩
    rw [normAngleDown, if_pos h, hk]
    push_cast
    ring
  | case2 a h =>
    refine ⟨0, ?_⟩
    rw [normAngleDown, if_neg h]
    push_cast
    ring

theorem normalizeAngle_bounds (a : ℝ) :
    -Real.pi ≤ normalizeAngle a ∧ normalizeAngle a ≤ Real.pi := by
  refine ⟨normAngleDown_ge _, ?_⟩
  have h1 := normAngleUp_le a
  have h2 := normAngleDown_le_max (normAngleUp a)
  rw [max_eq_right h1] at h2
  exact h2

theorem normalizeAngle_congr (a : ℝ) :
    ∃ k : ℤ, normalizeAngle a = a + 2 * Real.pi * k := by
  obtain ⟨k1, h1⟩ := normAngleUp_congr a
  obtain ⟨k2, h2⟩ := normAngleDown_congr (normAngleUp a)
  refine ⟨k2 - k1, ?_⟩
  rw [normalizeAngle, h2, h1]
  push_cast
  ring

theorem abs_le_of_congruent (x y : ℝ) (hx1 : -Real.pi ≤ x) (hx2 : x ≤ Real.pi)
    (k : ℤ) (hy : y = x + 2 * Real.pi * k) : |x| ≤ |y| := by
  rcases eq_or_ne k 0 with hk | hk
  · rw [hy, hk]
    push_cast
    rw [mul_zero, add_zero]
  · have hk1 : (1:ℝ) ≤ |(k:ℝ)| := by
      rw [← Int.cast_abs]
      exact_mod_cast Int.one_le_abs (by omega)
    have htri : |2 * Real.pi * (k:ℝ)| ≤ |y| + |x| := by
      have : 2 * Real.pi * (k:ℝ) = y - x := by rw [hy]; ring
      rw [this]
      exact abs_sub _ _
    have habs : |2 * Real.pi * (k:ℝ)| = 2 * Real.pi * |(k:ℝ)| := by
      rw [abs_mul, abs_of_pos (by positivity)]
    have hxpi : |x| ≤ Real.pi := abs_le.mpr ⟨hx1, hx2⟩
    have hpi := Real.pi_pos
    nlinarith

/-- Claim C9 counterexample: at a = pi, b = 0 the loop in normalizeAngle
leaves b - a = -pi unchanged, so angleDifference returns -pi, which is
outside the claimed half-open interval (-pi, pi]. -/
theorem angleDifference_pi_zero_outside_Ioc :
    angleDifference Real.pi 0 = -Real.pi ∧
    angleDifference Real.pi 0 ∉ Set.Ioc (-Real.pi) Real.pi := by
  have h1 : angleDifference Real.pi 0 = -Real.pi := by
    rw [angleDifference, show (0:ℝ) - Real.pi = -Real.pi by ring, normalizeAngle]
    rw [normAngleUp, if_neg (by linarith [Real.pi_pos])]
    rw [normAngleDown, if_neg (lt_irrefl _)]
  refine ⟨h1, ?_⟩
  rw [h1]
  intro hmem
  exact lt_irrefl _ hmem.1

/-- Claim C9 (amended): for all angles a and b, angleDifference a b lies
in the closed interval [-pi, pi], is congruent to b - a modulo 2*pi, and
has minimal absolute value among all congruent values.  The claimed
half-open interval (-pi, pi] is wrong only at the lower endpoint, which
is reached exactly when b - a is congruent to pi. -/
theorem angleDifference_minimal_repr (a b : ℝ) :
    angleDifference a b ∈ Set.Icc (-Real.pi) Real.pi ∧
    (∃ k : ℤ, angleDifference a b = (b - a) + 2 * Real.pi * k) ∧
    ∀ y : ℝ, (∃ k : ℤ, y = (b - a) + 2 * Real.pi * k) →
      |angleDifference a b| ≤ |y| := by
  have hb := normalizeAngle_bounds (b - a)
  obtain ⟨k0, hk0⟩ := normalizeAngle_congr (b - a)
  have hdef : angleDifference a b = normalizeAngle (b - a) := rfl
  refine ⟨⟨by rw [hdef]; exact hb.1, by rw [hdef]; exact hb.2⟩,
    ⟨k0, by rw [hdef]; exact hk0⟩, ?_⟩
  rintro y ⟨k, hk⟩
  refine abs_le_of_congruent _ _ (by rw [hdef]; exact hb.1) (by rw [hdef]; exact hb.2)
    (k - k0) ?_
  rw [hk, hdef, hk0]
  push_cast
  ring

/-- Witness for the amended claim C9: at a = 0, b = pi, the value 3*pi
is congruent to pi, and angleDifference 0 pi is no larger than it in
absolute value. -/
theorem angleDifference_minimal_repr_witness :
    |angleDifference 0 Real.pi| ≤ |(Real.pi - 0) + 2 * Real.pi * ((1:ℤ):ℝ)| :=
  (angleDifference_minimal_repr 0 Real.pi).2.2 _ ⟨1, rfl⟩

theorem canMoveTo_iff_corners (grid : Grid) (fromPos p : Vec2) (radius : ℝ) :
    canMoveTo grid fromPos p radius ↔ cornersWalkable grid p radius := by
  simp [canMoveTo, cornersWalkable, sub_eq_add_neg]

/-- Claim C7: resolveCollision tries the full move, then the
horizontal-only move, then the vertical-only move, in that order, and
otherwise stays put; each attempt succeeds exactly when the four corners
of the radius bounding square around the attempted position are
walkable. -/
theorem resolveCollision_cascade (grid : Grid) (fromPos toPos : Vec2) (radius : ℝ) :
    (cornersWalkable grid toPos radius →
      resolveCollision grid fromPos toPos radius = toPos) ∧
    (¬ cornersWalkable grid toPos radius ∧
        cornersWalkable grid ⟨toPos.x, fromPos.y⟩ radius →
      resolveCollision grid fromPos toPos radius = ⟨toPos.x, fromPos.y⟩) ∧
    (¬ cornersWalkable grid toPos radius ∧
        ¬ cornersWalkable grid ⟨toPos.x, fromPos.y⟩ radius ∧
        cornersWalkable grid ⟨fromPos.x, toPos.y⟩ radius →
      resolveCollision grid fromPos toPos radius = ⟨fromPos.x, toPos.y⟩) ∧
    (¬ cornersWalkable grid toPos radius ∧
        ¬ cornersWalkable grid ⟨toPos.x, fromPos.y⟩ radius ∧
        ¬ cornersWalkable grid ⟨fromPos.x, toPos.y⟩ radius →
      resolveCollision grid fromPos toPos radius = fromPos) := by
  have hiff : ∀ p : Vec2, canMoveTo grid fromPos p radius ↔ cornersWalkable grid p radius :=
    fun p => canMoveTo_iff_corners grid fromPos p radius
  refine ⟨fun h => ?_, fun h => ?_, fun h => ?_, fun h => ?_⟩ <;> rw [resolveCollision]
  · rw [if_pos ((hiff _).mpr h)]
  · rw [if_neg (fun hc => h.1 ((hiff _).mp hc)), if_pos ((hiff _).mpr h.2)]
  · rw [if_neg (fun hc => h.1 ((hiff _).mp hc)),
      if_neg (fun hc => h.2.1 ((hiff _).mp hc)), if_pos ((hiff _).mpr h.2.2)]
  · rw [if_neg (fun hc => h.1 ((hiff _).mp hc)),
      if_neg (fun hc => h.2.1 ((hiff _).mp hc)),
      if_neg (fun hc => h.2.2 ((hiff _).mp hc))]

/-- Witness for claim C7: against the walled right column of gridSlide,
a diagonal move from (0.5,0.5) toward (1.5,1.5) slides vertically to
(0.5,1.5): the full and horizontal attempts are corner-blocked, the
vertical attempt is free. -/
theorem resolveCollision_cascade_witness :
    resolveCollision gridSlide ⟨0.5, 0.5⟩ ⟨1.5, 1.5⟩ 0.3 = ⟨0.5, 1.5⟩ := by
  have h1 : ¬ cornersWalkable gridSlide ⟨1.5, 1.5⟩ 0.3 := by
    norm_num [cornersWalkable, isWalkable, gridGet, rowLen, gridSlide]
  have h2 : ¬ cornersWalkable gridSlide ⟨1.5, 0.5⟩ 0.3 := by
    norm_num [cornersWalkable, isWalkable, gridGet, rowLen, gridSlide]
  have h3 : cornersWalkable gridSlide ⟨0.5, 1.5⟩ 0.3 := by
    norm_num [cornersWalkable, isWalkable, gridGet, rowLen, gridSlide]
    all_goals decide
  exact (resolveCollision_cascade gridSlide ⟨0.5, 0.5⟩ ⟨1.5, 1.5⟩ 0.3).2.2.1 ⟨h1, h2, h3⟩

theorem closestNoiseScan_mem (epos : Vec2) (hr : ℝ) (ms : List NoiseMarker) :
    ∀ (acc : Option (Vec2 × ℝ)) (p : Vec2) (d : ℝ),
      closestNoiseScan epos hr ms acc = some (p, d) →
      (∃ m ∈ ms, m.pos = p ∧ distance epos m.pos = d ∧ d ≤ hr) ∨ acc = some (p, d) := by
  induction ms with
  | nil =>
    intro acc p d h
    exact Or.inr h
  | cons m rest ih =>
    intro acc p d h
    rcases acc with _ | best
    · rw [closestNoiseScan] at h
      split_ifs at h with hcond
      · rcases ih _ p d h with ⟨m', hm', hp, hd, hhr⟩ | hacc
        · exact Or.inl ⟨m', List.mem_cons_of_mem _ hm', hp, hd, hhr⟩
        · rw [Option.some_inj, Prod.mk.injEq] at hacc
          exact Or.inl ⟨m, List.mem_cons_self _ _, hacc.1, hacc.2,
            hacc.2 ▸ hcond⟩
      · rcases ih _ p d h with ⟨m', hm', hp, hd, hhr⟩ | hacc
        · exact Or.inl ⟨m', List.mem_cons_of_mem _ hm', hp, hd, hhr⟩
        · exact absurd hacc (by simp)
    · rw [closestNoiseScan] at h
      split_ifs at h with hcond
      · rcases ih _ p d h with ⟨m', hm', hp, hd, hhr⟩ | hacc
        · exact Or.inl ⟨m', List.mem_cons_of_mem _ hm', hp, hd, hhr⟩
        · rw [Option.some_inj, Prod.mk.injEq] at hacc
          exact Or.inl ⟨m, List.mem_cons_self _ _, hacc.1, hacc.2,
            hacc.2 ▸ hcond.1⟩
      · rcases ih _ p d h with ⟨m', hm', hp, hd, hhr⟩ | hacc
        · exact Or.inl ⟨m', List.mem_cons_of_mem _ hm', hp, hd, hhr⟩
        · exact Or.inr hacc

theorem closestNoiseScan_min (epos : Vec2) (hr : ℝ) (ms : List NoiseMarker) :
    ∀ (acc : Option (Vec2 × ℝ)) (p : Vec2) (d : ℝ),
      closestNoiseScan epos hr ms acc = some (p, d) →
      (∀ m ∈ ms, distance epos m.pos ≤ hr → d ≤ distance epos m.pos) ∧
      (∀ pd : Vec2 × ℝ, acc = some pd → d ≤ pd.2) := by
  induction ms with
  | nil =>
    intro acc p d h
    refine ⟨by simp, fun pd hpd => ?_⟩
    rw [closestNoiseScan] at h
    rw [h, Option.some_inj] at hpd
    rw [← hpd]
  | cons m rest ih =>
    intro acc p d h
    rcases acc with _ | best
    · rw [closestNoiseScan] at h
      split_ifs at h with hcond
      · obtain ⟨hrest, hacc⟩ := ih _ p d h
        have hdm : d ≤ distance epos m.pos := hacc _ rfl
        refine ⟨?_, by simp⟩
        intro m' hm' hhr'
        rcases List.mem_cons.mp hm' with rfl | hm''
        · exact hdm
        · exact hrest m' hm'' hhr'
      · obtain ⟨hrest, _⟩ := ih _ p d h
        refine ⟨?_, by simp⟩
        intro m' hm' hhr'
        rcases List.mem_cons.mp hm' with rfl | hm''
        · exact absurd hhr' hcond
        · exact hrest m' hm'' hhr'
    · rw [closestNoiseScan] at h
      split_ifs at h with hcond
      · obtain ⟨hrest, hacc⟩ := ih _ p d h
        have hdm : d ≤ distance epos m.pos := hacc _ rfl
        refine ⟨?_, ?_⟩
        · intro m' hm' hhr'
          rcases List.mem_cons.mp hm' with rfl | hm''
          · exact hdm
          · exact hrest m' hm'' hhr'
        · intro pd hpd
          rw [Option.some_inj] at hpd
          rw [← hpd]
          exact le_trans hdm (le_of_lt hcond.2)
      · obtain ⟨hrest, hacc⟩ := ih _ p d h
        have hdb : d ≤ best.2 := hacc _ rfl
        refine ⟨?_, ?_⟩
        · intro m' hm' hhr'
          rcases List.mem_cons.mp hm' with rfl | hm''
          · have : ¬ distance epos m'.pos < best.2 := fun hlt => hcond ⟨hhr', hlt⟩
            exact le_trans hdb (not_lt.mp this)
          · exact hrest m' hm'' hhr'
        · intro pd hpd
          rw [Option.some_inj] at hpd
          rw [← hpd]
          exact hdb

theorem closestNoiseScan_isSome (epos : Vec2) (hr : ℝ) (ms : List NoiseMarker) :
    ∀ acc : Option (Vec2 × ℝ),
      (closestNoiseScan epos hr ms acc).isSome = true ↔
        (∃ m ∈ ms, distance epos m.pos ≤ hr) ∨ acc.isSome = true := by
  induction ms with
  | nil =>
    intro acc
    rw [closestNoiseScan]
    simp
  | cons m rest ih =>
    intro acc
    rcases acc with _ | best
    · rw [closestNoiseScan]
      split_ifs with hcond
      · rw [ih]
        simp [hcond]
      · rw [ih]
        simp [hcond]
    · rw [closestNoiseScan]
      split_ifs with hcond
      · rw [ih]
        simp [hcond.1]
      · rw [ih]
        simp

/-- Claim C2: the vision test is exactly the conjunction of the range
test with the sneaking 0.6 scaling, the half-angle test, and line of
sight; in particular with base range 6 a sneaking player at distance 5
is never in cone, even when the walking test at the same position
passes. -/
theorem inVisionCone_iff_and_sneak_range (enemy : Enemy) (player : Player)
    (grid : Grid) (config : GameConfig) :
    (inVisionCone enemy player grid config ↔
      distance enemy.pos player.pos ≤
          (if player.isSneaking then config.visionRange * 0.6 else config.visionRange) ∧
        |angleDifference enemy.angle (angleBetween enemy.pos player.pos)| ≤
          degToRad (config.visionAngle / 2) ∧
        hasLineOfSight grid enemy.pos player.pos) ∧
    (config.visionRange = 6 → player.isSneaking = true →
      distance enemy.pos player.pos = 5 →
      inVisionCone enemy { player with isSneaking := false } grid config →
      ¬ inVisionCone enemy player grid config) := by
  constructor
  · exact Iff.rfl
  · intro h6 hsneak hdist _hwalk hcone
    have hrange := hcone.1
    rw [effectiveVisionRange, if_pos (by rw [hsneak]), h6, hdist] at hrange
    norm_num at hrange

theorem distance_horiz (x1 x2 y : ℝ) (h : x1 ≤ x2) :
    distance ⟨x1, y⟩ ⟨x2, y⟩ = x2 - x1 := by
  rw [distance]
  rw [show (x2 - x1) ^ 2 + (y - y) ^ 2 = (x2 - x1) ^ 2 by ring]
  exact Real.sqrt_sq (by linarith)

theorem distance_self (a : Vec2) : distance a a = 0 := by
  rw [distance]
  rw [show (a.x - a.x) ^ 2 + (a.y - a.y) ^ 2 = 0 by ring]
  exact Real.sqrt_zero

theorem atan2_zero_nonneg (x : ℝ) (hx : 0 ≤ x) : atan2 0 x = 0 := by
  rw [atan2]
  rw [show (⟨x, 0⟩ : ℂ) = ((x : ℝ) : ℂ) from Complex.ext rfl rfl]
  exact Complex.arg_ofReal_of_nonneg hx

theorem normalizeAngle_zero : normalizeAngle 0 = 0 := by
  rw [normalizeAngle]
  rw [normAngleUp, if_neg (lt_asymm Real.pi_pos)]
  rw [normAngleDown, if_neg (by simpa using Real.pi_pos.le)]

theorem getLinePoints_corridor :
    getLinePoints 0 0 5 0 = [(0,0),(1,0),(2,0),(3,0),(4,0),(5,0)] := by
  rw [getLinePoints, bresAux.eq_def]
  norm_num
  rw [bresAux.eq_def]
  norm_num
  rw [bresAux.eq_def]
  norm_num
  rw [bresAux.eq_def]
  norm_num
  rw [bresAux.eq_def]
  norm_num
  rw [bresAux.eq_def]
  norm_num

theorem hasLineOfSight_corridor :
    hasLineOfSight gridCorridor ⟨0.5, 0.5⟩ ⟨5.5, 0.5⟩ := by
  rw [hasLineOfSight]
  have h05 : ⌊(0.5:ℝ)⌋ = 0 := by norm_num
  have h55 : ⌊(5.5:ℝ)⌋ = 5 := by norm_num
  simp only [h05, h55, getLinePoints_corridor]
  intro p hp
  simp only [List.drop, List.dropLast, List.mem_cons, List.not_mem_nil, or_false] at hp
  rcases hp with rfl | rfl | rfl | rfl <;>
    (intro _; refine ⟨?_, ?_⟩ <;> simp [gridGet, gridCorridor])

/-- Witness for claim C2: the sentry at (0.5,0.5) facing right sees the
walking player at (5.5,0.5) (distance 5, straight ahead, clear
corridor), but never the sneaking player at the same spot. -/
theorem inVisionCone_iff_and_sneak_range_witness :
    ¬ inVisionCone sentryEnemy sneakPlayer gridCorridor DEFAULT_CONFIG := by
  have hdist : distance sentryEnemy.pos sneakPlayer.pos = 5 := by
    show distance ⟨0.5, 0.5⟩ ⟨5.5, 0.5⟩ = 5
    rw [distance_horiz 0.5 5.5 0.5 (by norm_num)]
    norm_num
  have hang : angleBetween sentryEnemy.pos sneakPlayer.pos = 0 := by
    show angleBetween ⟨0.5, 0.5⟩ ⟨5.5, 0.5⟩ = 0
    rw [angleBetween]
    rw [show (0.5:ℝ) - 0.5 = 0 by norm_num]
    exact atan2_zero_nonneg _ (by norm_num)
  have hwalk : inVisionCone sentryEnemy { sneakPlayer with isSneaking := false }
      gridCorridor DEFAULT_CONFIG := by
    refine ⟨?_, ?_, ?_⟩
    · show distance sentryEnemy.pos sneakPlayer.pos ≤ _
      rw [hdist, effectiveVisionRange]
      norm_num [DEFAULT_CONFIG]
    · show |angleDifference sentryEnemy.angle
        (angleBetween sentryEnemy.pos sneakPlayer.pos)| ≤ _
      rw [hang]
      rw [show sentryEnemy.angle = 0 from rfl]
      rw [angleDifference]
      rw [show (0:ℝ) - 0 = 0 by norm_num, normalizeAngle_zero]
      rw [abs_zero]
      rw [degToRad, show DEFAULT_CONFIG.visionAngle = 120 from rfl]
      positivity
    · show hasLineOfSight gridCorridor sentryEnemy.pos sneakPlayer.pos
      exact hasLineOfSight_corridor
  exact (inVisionCone_iff_and_sneak_range sentryEnemy sneakPlayer gridCorridor
    DEFAULT_CONFIG).2 rfl rfl hdist hwalk

theorem alertUpdate_preserves (e : Enemy) (player : Player) (dt : ℝ)
    (C H : Prop) (N : Option (Vec2 × ℝ)) :
    (alertUpdate e player dt C H N).id = e.id ∧
    (alertUpdate e player dt C H N).pos = e.pos ∧
    (alertUpdate e player dt C H N).angle = e.angle ∧
    (alertUpdate e player dt C H N).state = e.state ∧
    (alertUpdate e player dt C H N).waypoints = e.waypoints ∧
    (alertUpdate e player dt C H N).currentWaypointIndex = e.currentWaypointIndex ∧
    (alertUpdate e player dt C H N).stateTimer = e.stateTimer ∧
    (alertUpdate e player dt C H N).speed = e.speed ∧
    (alertUpdate e player dt C H N).ammo = e.ammo ∧
    (alertUpdate e player dt C H N).maxAmmo = e.maxAmmo ∧
    (alertUpdate e player dt C H N).health = e.health ∧
    (alertUpdate e player dt C H N).shootCooldown = e.shootCooldown ∧
    (alertUpdate e player dt C H N).isDead = e.isDead := by
  rw [alertUpdate.eq_def]
  split_ifs <;> exact ⟨rfl, rfl, rfl, rfl, rfl, rfl, rfl, rfl, rfl, rfl, rfl, rfl, rfl⟩

theorem enemyFSM_chase (e : Enemy) (player : Player) (grid : Grid)
    (config : GameConfig) (dt : ℝ) (inCone : Prop) (d : ℝ)
    (h : e.state = EnemyState.CHASE) :
    enemyFSM e player grid config dt inCone d =
      (let e1 := { e with stateTimer := e.stateTimer - dt }
       let e2 := if inCone then { e1 with stateTimer := config.chaseDuration } else e1
       let shoot := inCone ∧ d ≤ 8 ∧ e2.ammo > 0 ∧ e2.shootCooldown ≤ 0
       if e2.stateTimer ≤ 0 then
         ({ e2 with state := EnemyState.RETURN, speed := config.enemyPatrolSpeed,
                    alertLevel := 30 }, shoot)
       else (chaseBehavior e2 player grid dt, shoot)) := by
  simp only [enemyFSM, h]

/-- Claim C1: for every live enemy, updateEnemy runs exactly one alert
branch, with priority sight over hearing/noise over decay.  Sight adds
(100 / (2 if sneaking, else 0.8)) * dt and refreshes the last known
player position to the player position; hearing or a noise marker
within the base hearing radius adds 30 * dt and sets the investigate
target to the nearest in-radius marker position, else to the player
position; otherwise the alert decays by 15 * dt floored at 0.  Every
branch caps the resulting alert at 100, and the whole update feeds the
state machine unchanged otherwise. -/
theorem updateEnemy_alert_cascade (enemy : Enemy) (player : Player) (grid : Grid)
    (config : GameConfig) (dt : ℝ) (noiseMarkers : List NoiseMarker)
    (e1 : Enemy) (C H : Prop) (N : Option (Vec2 × ℝ)) (e2 : Enemy)
    (hlive : enemy.isDead = false)
    (he1 : e1 = { enemy with shootCooldown := max 0 (enemy.shootCooldown - dt) })
    (hC : C = inVisionCone e1 player grid config)
    (hH : H = canHear e1 player config)
    (hN : N = closestNoise e1 config noiseMarkers)
    (he2 : e2 = alertUpdate e1 player dt C H N) :
    updateEnemy enemy player grid config dt noiseMarkers =
      ⟨(enemyFSM e2 player grid config dt C (distance e1.pos player.pos)).1, C,
       (enemyFSM e2 player grid config dt C (distance e1.pos player.pos)).1.alertLevel,
       (enemyFSM e2 player grid config dt C (distance e1.pos player.pos)).2⟩ ∧
    (C → e2.alertLevel =
          min 100 (enemy.alertLevel + 100 / (if player.isSneaking then 2 else 0.8) * dt) ∧
        e2.lastKnownPlayerPos = some player.pos ∧
        e2.investigateTarget = enemy.investigateTarget) ∧
    (¬ C → (H ∨ N.isSome = true) →
        e2.alertLevel = min 100 (enemy.alertLevel + 30 * dt) ∧
        e2.investigateTarget = some ((N.map Prod.fst).getD player.pos) ∧
        e2.lastKnownPlayerPos = enemy.lastKnownPlayerPos) ∧
    (¬ C → ¬ (H ∨ N.isSome = true) →
        e2.alertLevel = min 100 (max 0 (enemy.alertLevel - 15 * dt)) ∧
        e2.investigateTarget = enemy.investigateTarget ∧
        e2.lastKnownPlayerPos = enemy.lastKnownPlayerPos) ∧
    (N.isSome = true ↔
      ∃ m ∈ noiseMarkers, distance enemy.pos m.pos ≤ config.hearingRadius) ∧
    (∀ (p : Vec2) (d : ℝ), N = some (p, d) →
        (∃ m ∈ noiseMarkers, m.pos = p ∧ distance enemy.pos m.pos = d ∧
          d ≤ config.hearingRadius) ∧
        ∀ m ∈ noiseMarkers, distance enemy.pos m.pos ≤ config.hearingRadius →
          d ≤ distance enemy.pos m.pos) := by
  subst he1 hC hH hN he2
  refine ⟨?_, ?_, ?_, ?_, ?_, ?_⟩
  · simp [updateEnemy, hlive]
  · intro hc
    rw [alertUpdate.eq_def, if_pos hc]
    exact ⟨rfl, rfl, rfl⟩
  · intro hnc hcond
    rw [alertUpdate.eq_def, if_neg hnc, if_pos hcond]
    refine ⟨rfl, ?_, rfl⟩
    show some _ = _
    cases h : closestNoise { enemy with
        shootCooldown := max 0 (enemy.shootCooldown - dt) } config noiseMarkers with
    | none => simp [h]
    | some best => simp [h]
  · intro hnc hncond
    rw [alertUpdate.eq_def, if_neg hnc, if_neg hncond]
    exact ⟨rfl, rfl, rfl⟩
  · rw [closestNoise]
    rw [closestNoiseScan_isSome]
    simp
  · intro p d hpd
    rw [closestNoise] at hpd
    constructor
    · rcases closestNoiseScan_mem _ _ _ _ _ _ hpd with hmem | habs
      · exact hmem
      · exact absurd habs (by simp)
    · exact (closestNoiseScan_min _ _ _ _ _ _ hpd).1

/-- Witness for claim C1: at a live idle enemy with no noise markers,
the noise scan is empty, matching the absence of in-radius markers. -/
theorem updateEnemy_alert_cascade_witness :
    ((closestNoise { baseEnemy with shootCooldown := max 0 (baseEnemy.shootCooldown - 1) }
        DEFAULT_CONFIG []).isSome = true ↔
      ∃ m ∈ ([] : List NoiseMarker),
        distance baseEnemy.pos m.pos ≤ DEFAULT_CONFIG.hearingRadius) :=
  (updateEnemy_alert_cascade baseEnemy basePlayer gridTest DEFAULT_CONFIG 1 []
    _ _ _ _ _ rfl rfl rfl rfl rfl rfl).2.2.2.2.1

/-- Claim C3: for a live enemy in the Chase state, the timer decreases
by dt but is reset to the configured chase duration whenever the enemy
has vision contact; a shoot intent is signaled exactly on vision contact
within distance 8 with positive ammo and an expired cooldown; on timer
expiry the enemy switches to Return with alert forced to 30 and patrol
speed; otherwise it moves toward the last known player position,
falling back to the live player position. -/
theorem updateEnemy_chase_spec (enemy : Enemy) (player : Player) (grid : Grid)
    (config : GameConfig) (dt : ℝ) (noiseMarkers : List NoiseMarker)
    (e1 : Enemy) (C H : Prop) (N : Option (Vec2 × ℝ)) (e2 : Enemy) (T : ℝ)
    (hlive : enemy.isDead = false)
    (hstate : enemy.state = EnemyState.CHASE)
    (he1 : e1 = { enemy with shootCooldown := max 0 (enemy.shootCooldown - dt) })
    (hC : C = inVisionCone e1 player grid config)
    (hH : H = canHear e1 player config)
    (hN : N = closestNoise e1 config noiseMarkers)
    (he2 : e2 = alertUpdate e1 player dt C H N)
    (hT : T = if C then config.chaseDuration else enemy.stateTimer - dt) :
    ((updateEnemy enemy player grid config dt noiseMarkers).shouldShoot ↔
      C ∧ distance enemy.pos player.pos ≤ 8 ∧ enemy.ammo > 0 ∧
        max 0 (enemy.shootCooldown - dt) = 0) ∧
    (T ≤ 0 →
      (updateEnemy enemy player grid config dt noiseMarkers).enemy =
        { e2 with stateTimer := T, state := EnemyState.RETURN,
                  speed := config.enemyPatrolSpeed, alertLevel := 30 }) ∧
    (0 < T →
      (updateEnemy enemy player grid config dt noiseMarkers).enemy =
        moveToward { e2 with stateTimer := T } (e2.lastKnownPlayerPos.getD player.pos)
          grid dt) := by
  have hstate2 : e2.state = EnemyState.CHASE := by
    rw [he2]
    rw [(alertUpdate_preserves _ _ _ _ _ _).2.2.2.1, he1]
    exact hstate
  have hupd : updateEnemy enemy player grid config dt noiseMarkers =
      ⟨(enemyFSM e2 player grid config dt C (distance e1.pos player.pos)).1, C,
       (enemyFSM e2 player grid config dt C (distance e1.pos player.pos)).1.alertLevel,
       (enemyFSM e2 player grid config dt C (distance e1.pos player.pos)).2⟩ :=
    (updateEnemy_alert_cascade enemy player grid config dt noiseMarkers
      e1 C H N e2 hlive he1 hC hH hN he2).1
  have hfsm := enemyFSM_chase e2 player grid config dt C (distance e1.pos player.pos) hstate2
  have htimer : e2.stateTimer = enemy.stateTimer := by
    rw [he2]
    rw [(alertUpdate_preserves _ _ _ _ _ _).2.2.2.2.2.2.1, he1]
  have hammo : e2.ammo = enemy.ammo := by
    rw [he2]
    rw [(alertUpdate_preserves _ _ _ _ _ _).2.2.2.2.2.2.2.2.1, he1]
  have hcool : e2.shootCooldown = max 0 (enemy.shootCooldown - dt) := by
    rw [he2]
    rw [(alertUpdate_preserves _ _ _ _ _ _).2.2.2.2.2.2.2.2.2.2.2.1, he1]
  refine ⟨?_, ?_, ?_⟩
  · rw [hupd]
    show (enemyFSM e2 player grid config dt C (distance e1.pos player.pos)).2 ↔ _
    rw [hfsm]
    have hd : distance e1.pos player.pos = distance enemy.pos player.pos := by rw [he1]
    by_cases hc : C
    · simp only [if_pos hc]
      split_ifs with hexp
      all_goals
        simp only [hd]
        constructor
        · rintro ⟨h1, h2, h3, h4⟩
          rw [hammo] at h3
          rw [hcool] at h4
          exact ⟨h1, h2, h3, le_antisymm h4 (le_max_left _ _)⟩
        · rintro ⟨h1, h2, h3, h4⟩
          rw [← hammo] at h3
          refine ⟨h1, h2, h3, ?_⟩
          rw [hcool, h4]
    · simp only [if_neg hc]
      split_ifs with hexp
      all_goals
        constructor
        · rintro ⟨h1, _⟩
          exact absurd h1 hc
        · rintro ⟨h1, _⟩
          exact absurd h1 hc
  · intro hexp
    rw [hupd]
    show (enemyFSM e2 player grid config dt C (distance e1.pos player.pos)).1 = _
    rw [hfsm]
    by_cases hc : C
    · rw [if_pos hc] at hT
      simp only [if_pos hc]
      rw [if_pos (show config.chaseDuration ≤ 0 by rw [← hT]; exact hexp)]
      rw [hT]
    · rw [if_neg hc] at hT
      simp only [if_neg hc]
      rw [if_pos (show e2.stateTimer - dt ≤ 0 by rw [htimer, ← hT]; exact hexp)]
      rw [hT, htimer]
  · intro hpos
    rw [hupd]
    show (enemyFSM e2 player grid config dt C (distance e1.pos player.pos)).1 = _
    rw [hfsm]
    by_cases hc : C
    · rw [if_pos hc] at hT
      simp only [if_pos hc]
      rw [if_neg (show ¬ config.chaseDuration ≤ 0 by rw [← hT]; exact not_le.mpr hpos)]
      rw [chaseBehavior, hT]
    · rw [if_neg hc] at hT
      simp only [if_neg hc]
      rw [if_neg (show ¬ e2.stateTimer - dt ≤ 0 by rw [htimer, ← hT]; exact not_le.mpr hpos)]
      rw [chaseBehavior, hT, htimer]

/-- Witness for claim C3: the fully alerted chasing enemy with no ammo
signals a shoot intent exactly under the four stated conditions (here
falsified by the empty magazine). -/
theorem updateEnemy_chase_spec_witness :
    ((updateEnemy meleeEnemy basePlayer gridTest DEFAULT_CONFIG 1 []).shouldShoot ↔
      inVisionCone { meleeEnemy with shootCooldown := max 0 (meleeEnemy.shootCooldown - 1) }
          basePlayer gridTest DEFAULT_CONFIG ∧
        distance meleeEnemy.pos basePlayer.pos ≤ 8 ∧ meleeEnemy.ammo > 0 ∧
        max 0 (meleeEnemy.shootCooldown - 1) = 0) :=
  (updateEnemy_chase_spec meleeEnemy basePlayer gridTest DEFAULT_CONFIG 1 []
    _ _ _ _ _ _ rfl rfl rfl rfl rfl rfl rfl rfl).1

theorem updateGame_skip (state : GameState) (input : InputState) (dt : ℝ)
    (h : state.isPaused = true ∨ state.isGameOver = true ∨ state.isWin = true) :
    updateGame state input dt = state := by
  rw [updateGame]
  rcases h with h | h | h <;> rw [if_pos (by rw [h]; tauto)]

/-- Claim C4: whenever the state is paused or a terminal flag is set,
updateGame returns the state unchanged for every input and delta, so
terminal flags are sticky and the whole world is frozen. -/
theorem updateGame_frozen_when_terminal (state : GameState) (input : InputState)
    (dt : ℝ)
    (h : state.isPaused = true ∨ state.isGameOver = true ∨ state.isWin = true) :
    updateGame state input dt = state :=
  updateGame_skip state input dt h

/-- Witness for claim C4: a tick on the paused quiescent world is a
no-op. -/
theorem updateGame_frozen_when_terminal_witness :
    updateGame pausedState idleInput (1/10) = pausedState :=
  updateGame_frozen_when_terminal pausedState idleInput (1/10) (Or.inl rfl)

theorem updateGame_run (state : GameState) (input : InputState) (dt : ℝ)
    (hp : state.isPaused = false) (hg : state.isGameOver = false)
    (hw : state.isWin = false) :
    updateGame state input dt =
      pickupPhase (winCheck (enemyPhase (updateBullets
        (noisePhase (updatePlayer state input dt) dt) dt) dt)) := by
  rw [updateGame, if_neg]
  simp [hp, hg, hw]

theorem updatePlayer_frame (st : GameState) (input : InputState) (dt : ℝ) :
    (updatePlayer st input dt).enemies = st.enemies ∧
    (updatePlayer st input dt).grid = st.grid ∧
    (updatePlayer st input dt).config = st.config ∧
    (updatePlayer st input dt).isGameOver = st.isGameOver ∧
    (updatePlayer st input dt).isWin = st.isWin ∧
    (updatePlayer st input dt).ammoPickups = st.ammoPickups ∧
    (updatePlayer st input dt).player.health = st.player.health ∧
    (updatePlayer st input dt).player.maxHealth = st.player.maxHealth := by
  refine ⟨?_, ?_, ?_, ?_, ?_, ?_, ?_, ?_⟩
  · simp only [updatePlayer, playerShoot, apply_ite GameState.enemies, ite_self]
  · simp only [updatePlayer, playerShoot, apply_ite GameState.grid, ite_self]
  · simp only [updatePlayer, playerShoot, apply_ite GameState.config, ite_self]
  · simp only [updatePlayer, playerShoot, apply_ite GameState.isGameOver, ite_self]
  · simp only [updatePlayer, playerShoot, apply_ite GameState.isWin, ite_self]
  · simp only [updatePlayer, playerShoot, apply_ite GameState.ammoPickups, ite_self]
  · simp only [updatePlayer, playerShoot, apply_ite GameState.player,
      apply_ite Player.health, ite_self]
  · simp only [updatePlayer, playerShoot, apply_ite GameState.player,
      apply_ite Player.maxHealth, ite_self]

theorem noisePhase_frame (st : GameState) (dt : ℝ) :
    (noisePhase st dt).enemies = st.enemies ∧
    (noisePhase st dt).grid = st.grid ∧
    (noisePhase st dt).config = st.config ∧
    (noisePhase st dt).isGameOver = st.isGameOver ∧
    (noisePhase st dt).isWin = st.isWin ∧
    (noisePhase st dt).ammoPickups = st.ammoPickups ∧
    (noisePhase st dt).player = st.player :=
  ⟨rfl, rfl, rfl, rfl, rfl, rfl, rfl⟩

theorem bulletStep_frame (st : GameState) (dt : ℝ) (b : Bullet) :
    (bulletStep st dt b).2.grid = st.grid ∧
    (bulletStep st dt b).2.config = st.config ∧
    (bulletStep st dt b).2.isWin = st.isWin ∧
    (bulletStep st dt b).2.noiseMarkers = st.noiseMarkers ∧
    (bulletStep st dt b).2.player.pos = st.player.pos ∧
    (bulletStep st dt b).2.player.maxHealth = st.player.maxHealth := by
  simp only [bulletStep]
  split_ifs <;>
    exact ⟨rfl, rfl, rfl, rfl, rfl, rfl⟩

theorem bulletsLoop_frame (dt : ℝ) (bs : List Bullet) :
    ∀ st : GameState,
    (bulletsLoop dt bs st).2.grid = st.grid ∧
    (bulletsLoop dt bs st).2.config = st.config ∧
    (bulletsLoop dt bs st).2.isWin = st.isWin ∧
    (bulletsLoop dt bs st).2.noiseMarkers = st.noiseMarkers ∧
    (bulletsLoop dt bs st).2.player.pos = st.player.pos ∧
    (bulletsLoop dt bs st).2.player.maxHealth = st.player.maxHealth := by
  induction bs with
  | nil => intro st; exact ⟨rfl, rfl, rfl, rfl, rfl, rfl⟩
  | cons b rest ih =>
    intro st
    obtain ⟨h1, h2, h3, h4, h5, h6⟩ := ih st
    obtain ⟨g1, g2, g3, g4, g5, g6⟩ := bulletStep_frame (bulletsLoop dt rest st).2 dt b
    rw [bulletsLoop]
    exact ⟨g1.trans h1, g2.trans h2, g3.trans h3, g4.trans h4, g5.trans h5, g6.trans h6⟩

theorem updateBullets_frame (st : GameState) (dt : ℝ) :
    (updateBullets st dt).grid = st.grid ∧
    (updateBullets st dt).config = st.config ∧
    (updateBullets st dt).isWin = st.isWin ∧
    (updateBullets st dt).noiseMarkers = st.noiseMarkers ∧
    (updateBullets st dt).player.pos = st.player.pos ∧
    (updateBullets st dt).player.maxHealth = st.player.maxHealth := by
  obtain ⟨h1, h2, h3, h4, h5, h6⟩ := bulletsLoop_frame dt st.bullets st
  exact ⟨h1, h2, h3, h4, h5, h6⟩

theorem enemyShoot_frame (st : GameState) (e : Enemy) :
    (enemyShoot st e).2.grid = st.grid ∧
    (enemyShoot st e).2.config = st.config ∧
    (enemyShoot st e).2.isWin = st.isWin ∧
    (enemyShoot st e).2.isGameOver = st.isGameOver ∧
    (enemyShoot st e).2.player = st.player ∧
    (enemyShoot st e).2.ammoPickups = st.ammoPickups :=
  ⟨rfl, rfl, rfl, rfl, rfl, rfl⟩

theorem enemyLoop_frame (dt : ℝ) (es : List Enemy) :
    ∀ (st : GameState) (md : ℝ),
    (enemyLoop dt es st md).2.1.grid = st.grid ∧
    (enemyLoop dt es st md).2.1.config = st.config ∧
    (enemyLoop dt es st md).2.1.isWin = st.isWin ∧
    (enemyLoop dt es st md).2.1.player.pos = st.player.pos ∧
    (enemyLoop dt es st md).2.1.player.maxHealth = st.player.maxHealth ∧
    (enemyLoop dt es st md).2.1.ammoPickups = st.ammoPickups := by
  induction es with
  | nil => intro st md; exact ⟨rfl, rfl, rfl, rfl, rfl, rfl⟩
  | cons e rest ih =>
    intro st md
    rw [enemyLoop]
    by_cases hdead : e.isDead = true
    · rw [if_pos hdead]
      exact ih st md
    · rw [if_neg hdead]
      refine ⟨((ih _ _).1).trans ?_, ((ih _ _).2.1).trans ?_, ((ih _ _).2.2.1).trans ?_,
        ((ih _ _).2.2.2.1).trans ?_, ((ih _ _).2.2.2.2.1).trans ?_,
        ((ih _ _).2.2.2.2.2).trans ?_⟩ <;>
        (split_ifs <;> rfl)

theorem pickupPhase_isWin (st : GameState) : (pickupPhase st).isWin = st.isWin := rfl

theorem winCheck_isWin (st : GameState) :
    (winCheck st).isWin = true ↔ winCondition st ∨ st.isWin = true := by
  rw [winCheck]
  split_ifs with h
  · simp [h]
  · simp [h]

theorem enemyPhase_isWin (st : GameState) (dt : ℝ) :
    (enemyPhase st dt).isWin = st.isWin := by
  rw [enemyPhase]
  exact (enemyLoop_frame dt st.enemies st 0).2.2.1

/-- Claim C5: on a tick that is not skipped, isWin is set exactly when,
after the enemy phase, the player tile is the in-bounds exit tile and
every enemy is dead; and once isWin is true it stays true on every later
tick regardless of input. -/
theorem updateGame_win_iff (state : GameState) (input : InputState) (dt : ℝ)
    (hp : state.isPaused = false) (hg : state.isGameOver = false)
    (hw : state.isWin = false) :
    ((updateGame state input dt).isWin = true ↔
      winCondition (enemyPhase (updateBullets
        (noisePhase (updatePlayer state input dt) dt) dt) dt)) ∧
    (∀ (t : GameState) (input2 : InputState) (dt2 : ℝ), t.isWin = true →
      (updateGame t input2 dt2).isWin = true) := by
  constructor
  · rw [updateGame_run state input dt hp hg hw]
    rw [pickupPhase_isWin, winCheck_isWin]
    have h4 : (enemyPhase (updateBullets
        (noisePhase (updatePlayer state input dt) dt) dt) dt).isWin = false := by
      rw [enemyPhase_isWin]
      rw [(updateBullets_frame (noisePhase (updatePlayer state input dt) dt) dt).2.2.1]
      rw [(noisePhase_frame (updatePlayer state input dt) dt).2.2.2.2.1]
      rw [(updatePlayer_frame state input dt).2.2.2.2.1]
      exact hw
    rw [h4]
    simp
  · intro t input2 dt2 ht
    rw [updateGame_skip t input2 dt2 (Or.inr (Or.inr ht))]
    exact ht

theorem updatePlayer_idle (st : GameState) (dt : ℝ) :
    updatePlayer st idleInput dt =
      { st with player := { st.player with
          shootCooldown := max 0 (st.player.shootCooldown - dt),
          isSprinting := false, isSneaking := false, noiseLevel := 0 } } := by
  rw [updatePlayer]
  norm_num [idleInput]

theorem noisePhase_noMarkers (st : GameState) (dt : ℝ) (h : st.noiseMarkers = []) :
    noisePhase st dt = st := by
  have h2 : ({ st with noiseMarkers := ([] : List NoiseMarker) } : GameState) = st := by
    rw [← h]
  rw [noisePhase]
  simp only [h, List.map_nil, List.filter_nil]
  exact h2

theorem updateBullets_noBullets (st : GameState) (dt : ℝ) (h : st.bullets = []) :
    updateBullets st dt = st := by
  have h2 : ({ st with bullets := ([] : List Bullet) } : GameState) = st := by
    rw [← h]
  rw [updateBullets]
  simp only [h]
  rw [bulletsLoop]
  exact h2

theorem enemyLoop_allDead (dt : ℝ) (es : List Enemy) :
    ∀ (st : GameState) (md : ℝ), (∀ e ∈ es, e.isDead = true) →
      enemyLoop dt es st md = (es, st, md) := by
  induction es with
  | nil => intro st md _; rw [enemyLoop]
  | cons e rest ih =>
    intro st md h
    rw [enemyLoop, if_pos (h e (List.mem_cons_self _ _))]
    rw [ih st md (fun e2 he2 => h e2 (List.mem_cons_of_mem _ he2))]

theorem enemyPhase_allDead (st : GameState) (dt : ℝ)
    (h : ∀ e ∈ st.enemies, e.isDead = true) :
    enemyPhase st dt = { st with detectionLevel := 0 } := by
  rw [enemyPhase, enemyLoop_allDead dt st.enemies st 0 h]

theorem pickupPhase_noPickups (st : GameState) (h : st.ammoPickups = []) :
    pickupPhase st = st := by
  have h2 : ({ st with ammoPickups := ([] : List AmmoPickup), player := st.player } : GameState) = st := by
    rw [← h]
  rw [pickupPhase]
  simp only [h]
  rw [pickupLoop]
  exact h2

theorem updatePlayer_baseState :
    updatePlayer baseState idleInput (1/10) = baseState := by
  rw [updatePlayer_idle]
  have hmax : max 0 (baseState.player.shootCooldown - 1/10) = 0 := by
    rw [show baseState.player.shootCooldown = 0 from rfl]
    rw [max_eq_left (by norm_num)]
  rw [hmax]
  rfl

theorem winCondition_baseState : winCondition baseState := by
  have hx : ⌊baseState.player.pos.x⌋ = 2 := by
    rw [show baseState.player.pos.x = 2.5 from rfl]
    norm_num
  have hy : ⌊baseState.player.pos.y⌋ = 2 := by
    rw [show baseState.player.pos.y = 2.5 from rfl]
    norm_num
  rw [winCondition, hx, hy]
  refine ⟨by norm_num, ?_, by norm_num, ?_, ?_, ?_⟩
  · rw [show baseState.grid = gridTest from rfl]
    norm_num [gridTest]
  · rw [show baseState.grid = gridTest from rfl]
    rw [show rowLen gridTest = 3 from rfl]
    norm_num
  · rw [show baseState.grid = gridTest from rfl]
    rfl
  · rfl

/-- Witness for claim C5: with the lone enemy dead and the player on the
exit tile, the tick sets isWin. -/
theorem updateGame_win_iff_witness :
    (updateGame baseState idleInput (1/10)).isWin = true := by
  refine (updateGame_win_iff baseState idleInput (1/10) rfl rfl rfl).1.mpr ?_
  rw [updatePlayer_baseState, noisePhase_noMarkers baseState (1/10) rfl,
    updateBullets_noBullets baseState (1/10) rfl]
  have h4 : enemyPhase baseState (1/10) = baseState := by
    refine (enemyPhase_allDead baseState (1/10) ?_).trans rfl
    intro e he
    rw [show baseState.enemies = [deadEnemy] from rfl, List.mem_singleton] at he
    rw [he]
    rfl
  rw [h4]
  exact winCondition_baseState

theorem updatePlayer_exitBulletState :
    updatePlayer exitBulletState idleInput (1/10) = exitBulletState := by
  rw [updatePlayer_idle]
  have hmax : max 0 (exitBulletState.player.shootCooldown - 1/10) = 0 := by
    rw [show exitBulletState.player.shootCooldown = 0 from rfl]
    rw [max_eq_left (by norm_num)]
  rw [hmax]
  rfl

theorem updateBullets_exitBulletState :
    updateBullets exitBulletState (1/10) = exitHitState := by
  rw [updateBullets]
  rw [show exitBulletState.bullets = [(⟨0, ⟨1.3, 2.5⟩, ⟨12, 0⟩, false, 1⟩ : Bullet)] from rfl]
  rw [bulletsLoop, bulletsLoop, bulletStep]
  dsimp only
  have hwalk : ¬ ¬ isWalkable exitBulletState.grid
      ((⌊(1.3:ℝ) + 12 * (1/10)⌋ : ℤ) : ℝ) ((⌊(2.5:ℝ) + 0 * (1/10)⌋ : ℤ) : ℝ) := by
    rw [not_not]
    have hx : ⌊(1.3:ℝ) + 12 * (1/10)⌋ = 2 := by norm_num
    have hy : ⌊(2.5:ℝ) + 0 * (1/10)⌋ = 2 := by norm_num
    rw [hx, hy, isWalkable]
    norm_num [rowLen, show exitBulletState.grid = gridTest from rfl, gridTest]
    decide
  rw [if_neg hwalk]
  rw [if_neg (show ¬ (1:ℝ) - 1/10 ≤ 0 by norm_num)]
  rw [if_neg (show ¬ (false : Bool) = true by decide)]
  have hdist : distance ⟨1.3 + 12 * (1/10), 2.5 + 0 * (1/10)⟩
      exitBulletState.player.pos < 0.35 := by
    rw [show exitBulletState.player.pos = (⟨2.5, 2.5⟩ : Vec2) from rfl, distance]
    have hz : ((2.5:ℝ) - (1.3 + 12 * (1/10))) ^ 2 + ((2.5:ℝ) - (2.5 + 0 * (1/10))) ^ 2 = 0 := by
      norm_num
    rw [hz, Real.sqrt_zero]
    norm_num
  rw [if_pos hdist]
  rw [if_pos (show exitBulletState.player.health - 1 ≤ 0 from by
    rw [show exitBulletState.player.health = 1 from rfl]
    norm_num)]
  norm_num [exitBulletState, exitHitState, baseState, basePlayer,
    GameState.mk.injEq, Player.mk.injEq]

theorem winCondition_exitHitState : winCondition exitHitState := by
  have hx : ⌊exitHitState.player.pos.x⌋ = 2 := by
    rw [show exitHitState.player.pos.x = 2.5 from rfl]
    norm_num
  have hy : ⌊exitHitState.player.pos.y⌋ = 2 := by
    rw [show exitHitState.player.pos.y = 2.5 from rfl]
    norm_num
  rw [winCondition, hx, hy]
  refine ⟨by norm_num, ?_, by norm_num, ?_, ?_, ?_⟩
  · rw [show exitHitState.grid = gridTest from rfl]
    norm_num [gridTest]
  · rw [show exitHitState.grid = gridTest from rfl]
    rw [show rowLen gridTest = 3 from rfl]
    norm_num
  · rw [show exitHitState.grid = gridTest from rfl]
    rfl
  · rfl

/-- Claim C10: with every enemy dead, the player on the exit tile with
one health, and an enemy bullet arriving this tick, a single tick sets
both isGameOver (in the bullet phase) and isWin (in the later win
evaluation, which does not test isGameOver). -/
theorem updateGame_double_terminal :
    (updateGame exitBulletState idleInput (1/10)).isGameOver = true ∧
    (updateGame exitBulletState idleInput (1/10)).isWin = true := by
  rw [updateGame_run exitBulletState idleInput (1/10) rfl rfl rfl]
  rw [updatePlayer_exitBulletState,
    noisePhase_noMarkers exitBulletState (1/10) rfl,
    updateBullets_exitBulletState]
  have h4 : enemyPhase exitHitState (1/10) = exitHitState := by
    refine (enemyPhase_allDead exitHitState (1/10) ?_).trans rfl
    intro e he
    rw [show exitHitState.enemies = [deadEnemy] from rfl, List.mem_singleton] at he
    rw [he]
    rfl
  rw [h4]
  have h5 : winCheck exitHitState = { exitHitState with isWin := true } := by
    rw [winCheck, if_pos winCondition_exitHitState]
  rw [h5]
  rw [pickupPhase_noPickups _ rfl]
  exact ⟨rfl, rfl⟩

theorem enemyHitScan_split (bpos : Vec2) (post : List Enemy) (e : Enemy)
    (hlive : e.isDead = false) (hhit : distance bpos e.pos < 0.4) :
    ∀ pre : List Enemy,
      (∀ e2 ∈ pre, e2.isDead = true ∨ ¬ distance bpos e2.pos < 0.4) →
      enemyHitScan bpos (pre ++ e :: post) =
        (pre ++ (if e.health - 1 ≤ 0
                 then { e with health := e.health - 1, isDead := true }
                 else { e with health := e.health - 1 }) :: post,
         (if e.health - 1 ≤ 0
          then [⟨e.pos, ((⌊e.ammo / 2⌋ : ℤ) : ℝ) + 2, false⟩]
          else ([] : List AmmoPickup)),
         true) := by
  intro pre
  induction pre with
  | nil =>
    intro _
    rw [List.nil_append, enemyHitScan]
    rw [if_neg (show ¬ e.isDead = true by rw [hlive]; exact Bool.false_ne_true)]
    rw [if_pos hhit]
    dsimp only
    split_ifs with hkill
    · rw [List.nil_append]
    · rw [List.nil_append]
  | cons p pre ih =>
    intro hpre
    have hrest := ih (fun e2 he2 => hpre e2 (List.mem_cons_of_mem _ he2))
    by_cases hd : p.isDead = true
    · rw [List.cons_append, enemyHitScan, if_pos hd]
      dsimp only
      rw [hrest]
      rw [List.cons_append]
    · have hfar : ¬ distance bpos p.pos < 0.4 :=
        (hpre p (List.mem_cons_self _ _)).resolve_left hd
      rw [List.cons_append, enemyHitScan, if_neg hd, if_neg hfar]
      dsimp only
      rw [hrest]
      rw [List.cons_append]

/-- Claim C6: a player bullet that survives the wall and lifetime checks
and whose first live in-range enemy (in enumeration order) is e damages
exactly that enemy by 1 and is destroyed; if its health drops to 0 or
below, the enemy is marked dead and exactly one uncollected ammo pickup
of amount floor(ammo/2)+2 appears at its position, where ammo is the
enemy's remaining ammo at death; later enemies, the pickups otherwise,
the player and the loss flag are untouched. -/
theorem bulletStep_player_hit (st : GameState) (dt : ℝ) (b b1 : Bullet)
    (pre post : List Enemy) (e : Enemy)
    (hb1 : b1 = { b with
      pos := ⟨b.pos.x + b.velocity.x * dt, b.pos.y + b.velocity.y * dt⟩,
      lifetime := b.lifetime - dt })
    (hpb : b.isPlayerBullet = true)
    (hwalk : isWalkable st.grid ((⌊b1.pos.x⌋ : ℤ) : ℝ) ((⌊b1.pos.y⌋ : ℤ) : ℝ))
    (hlife : 0 < b1.lifetime)
    (hsplit : st.enemies = pre ++ e :: post)
    (hpre : ∀ e2 ∈ pre, e2.isDead = true ∨ ¬ distance b1.pos e2.pos < 0.4)
    (hlive : e.isDead = false)
    (hhit : distance b1.pos e.pos < 0.4) :
    (bulletStep st dt b).1 = [] ∧
    (bulletStep st dt b).2.enemies =
      pre ++ (if e.health - 1 ≤ 0
              then { e with health := e.health - 1, isDead := true }
              else { e with health := e.health - 1 }) :: post ∧
    (bulletStep st dt b).2.ammoPickups =
      st.ammoPickups ++ (if e.health - 1 ≤ 0
        then [⟨e.pos, ((⌊e.ammo / 2⌋ : ℤ) : ℝ) + 2, false⟩]
        else ([] : List AmmoPickup)) ∧
    (bulletStep st dt b).2.player = st.player ∧
    (bulletStep st dt b).2.isGameOver = st.isGameOver := by
  subst hb1
  rw [bulletStep]
  dsimp only
  rw [if_neg (not_not_intro hwalk)]
  rw [if_neg (not_le.mpr hlife)]
  rw [if_pos hpb]
  rw [hsplit]
  rw [enemyHitScan_split _ post e hlive hhit pre hpre]
  dsimp only
  rw [if_pos rfl]
  exact ⟨rfl, rfl, rfl, rfl, rfl⟩

/-- Witness for claim C6: one player bullet reaches baseEnemy (health 1,
ammo 6); the enemy dies and drops a pickup of amount floor(6/2)+2 = 5 at
its position. -/
theorem bulletStep_player_hit_witness :
    (bulletStep shotState (1/100) hitBullet).1 = [] ∧
    (bulletStep shotState (1/100) hitBullet).2.enemies =
      [{ baseEnemy with health := baseEnemy.health - 1, isDead := true }] ∧
    (bulletStep shotState (1/100) hitBullet).2.ammoPickups =
      [⟨⟨1.5, 1.5⟩, 5, false⟩] := by
  have hkill : baseEnemy.health - 1 ≤ 0 := by
    rw [show baseEnemy.health = 1 from rfl]
    norm_num
  have hwalk : isWalkable shotState.grid
      ((⌊(1.35:ℝ) + 15 * (1/100)⌋ : ℤ) : ℝ) ((⌊(1.5:ℝ) + 0 * (1/100)⌋ : ℤ) : ℝ) := by
    have hx : ⌊(1.35:ℝ) + 15 * (1/100)⌋ = 1 := by norm_num
    have hy : ⌊(1.5:ℝ) + 0 * (1/100)⌋ = 1 := by norm_num
    rw [hx, hy, isWalkable]
    norm_num [rowLen, show shotState.grid = gridTest from rfl, gridTest]
    decide
  have hlife : (0:ℝ) < 2 - 1/100 := by norm_num
  have hhit : distance ⟨1.35 + 15 * (1/100), 1.5 + 0 * (1/100)⟩ baseEnemy.pos < 0.4 := by
    rw [show baseEnemy.pos = (⟨1.5, 1.5⟩ : Vec2) from rfl, distance]
    have hz : ((1.5:ℝ) - (1.35 + 15 * (1/100))) ^ 2 + ((1.5:ℝ) - (1.5 + 0 * (1/100))) ^ 2
        = 0 := by norm_num
    rw [hz, Real.sqrt_zero]
    norm_num
  obtain ⟨h1, h2, h3, _, _⟩ := bulletStep_player_hit shotState (1/100) hitBullet _
    [] [] baseEnemy rfl rfl hwalk hlife rfl
    (fun e2 he2 => absurd he2 (List.not_mem_nil _)) rfl hhit
  refine ⟨h1, ?_, ?_⟩
  · rw [h2, if_pos hkill]
    rfl
  · rw [h3, if_pos hkill]
    rw [show shotState.ammoPickups = ([] : List AmmoPickup) from rfl, List.nil_append]
    have hamt : ((⌊baseEnemy.ammo / 2⌋ : ℤ) : ℝ) + 2 = 5 := by
      rw [show baseEnemy.ammo = 6 from rfl]
      norm_num
    rw [hamt]
    rw [show baseEnemy.pos = (⟨1.5, 1.5⟩ : Vec2) from rfl]

theorem moveToward_alert_health (e : Enemy) (target : Vec2) (grid : Grid) (dt : ℝ) :
    (moveToward e target grid dt).alertLevel = e.alertLevel ∧
    (moveToward e target grid dt).health = e.health := by
  rw [moveToward]
  dsimp only
  split_ifs <;> exact ⟨rfl, rfl⟩

theorem patrolBehavior_alert_health (e : Enemy) (grid : Grid) (dt : ℝ) :
    (patrolBehavior e grid dt).alertLevel = e.alertLevel ∧
    (patrolBehavior e grid dt).health = e.health := by
  rw [patrolBehavior]
  obtain ⟨m1, m2⟩ := moveToward_alert_health e
    (e.waypoints.getD e.currentWaypointIndex ⟨0, 0⟩) grid dt
  dsimp only
  split_ifs
  · exact ⟨rfl, rfl⟩
  · exact ⟨m1, m2⟩
  · exact ⟨m1, m2⟩

theorem investigateBehavior_alert_health (e : Enemy) (grid : Grid) (dt : ℝ) :
    (investigateBehavior e grid dt).alertLevel = e.alertLevel ∧
    (investigateBehavior e grid dt).health = e.health := by
  cases ht : e.investigateTarget with
  | none => simp [investigateBehavior, ht]
  | some target =>
    obtain ⟨m1, m2⟩ := moveToward_alert_health e target grid dt
    simp only [investigateBehavior, ht]
    split_ifs <;> simp [m1, m2]

theorem chaseBehavior_alert_health (e : Enemy) (player : Player) (grid : Grid) (dt : ℝ) :
    (chaseBehavior e player grid dt).alertLevel = e.alertLevel ∧
    (chaseBehavior e player grid dt).health = e.health :=
  moveToward_alert_health e (e.lastKnownPlayerPos.getD player.pos) grid dt

theorem returnBehavior_alert_health (e : Enemy) (grid : Grid) (dt : ℝ) :
    (returnBehavior e grid dt).1.alertLevel = e.alertLevel ∧
    (returnBehavior e grid dt).1.health = e.health := by
  rw [returnBehavior]
  obtain ⟨m1, m2⟩ := moveToward_alert_health e (e.waypoints.getD 0 ⟨0, 0⟩) grid dt
  dsimp only
  split_ifs
  · exact ⟨rfl, rfl⟩
  · exact ⟨m1, m2⟩

theorem enemyFSM_alert_health (e : Enemy) (player : Player) (grid : Grid)
    (config : GameConfig) (dt : ℝ) (inCone : Prop) (d : ℝ)
    (h0 : 0 ≤ e.alertLevel) (h100 : e.alertLevel ≤ 100) :
    (0 ≤ (enemyFSM e player grid config dt inCone d).1.alertLevel ∧
      (enemyFSM e player grid config dt inCone d).1.alertLevel ≤ 100) ∧
    (enemyFSM e player grid config dt inCone d).1.health = e.health := by
  cases hst : e.state with
  | PATROL =>
    simp only [enemyFSM, hst]
    split_ifs
    · exact ⟨⟨h0, h100⟩, rfl⟩
    · exact ⟨⟨h0, h100⟩, rfl⟩
    · dsimp only
      rw [(patrolBehavior_alert_health _ grid dt).1, (patrolBehavior_alert_health _ grid dt).2]
      exact ⟨⟨h0, h100⟩, rfl⟩
  | INVESTIGATE =>
    simp only [enemyFSM, hst]
    split_ifs
    · exact ⟨⟨h0, h100⟩, rfl⟩
    · exact ⟨⟨h0, h100⟩, rfl⟩
    · dsimp only
      rw [(investigateBehavior_alert_health _ grid dt).1,
        (investigateBehavior_alert_health _ grid dt).2]
      exact ⟨⟨h0, h100⟩, rfl⟩
  | CHASE =>
    simp only [enemyFSM, hst]
    split_ifs
    · exact ⟨⟨by norm_num, by norm_num⟩, rfl⟩
    · dsimp only
      rw [(chaseBehavior_alert_health _ player grid dt).1,
        (chaseBehavior_alert_health _ player grid dt).2]
      exact ⟨⟨h0, h100⟩, rfl⟩
    · exact ⟨⟨by norm_num, by norm_num⟩, rfl⟩
    · dsimp only
      rw [(chaseBehavior_alert_health _ player grid dt).1,
        (chaseBehavior_alert_health _ player grid dt).2]
      exact ⟨⟨h0, h100⟩, rfl⟩
  | RETURN =>
    simp only [enemyFSM, hst]
    split_ifs
    · exact ⟨⟨h0, h100⟩, rfl⟩
    · dsimp only
      rw [(returnBehavior_alert_health _ grid dt).1, (returnBehavior_alert_health _ grid dt).2]
      exact ⟨⟨h0, h100⟩, rfl⟩
    · dsimp only
      rw [(returnBehavior_alert_health _ grid dt).1, (returnBehavior_alert_health _ grid dt).2]
      exact ⟨⟨h0, h100⟩, rfl⟩

theorem alertUpdate_bound (e : Enemy) (player : Player) (dt : ℝ)
    (C H : Prop) (N : Option (Vec2 × ℝ)) (hdt : 0 ≤ dt) (h0 : 0 ≤ e.alertLevel) :
    0 ≤ (alertUpdate e player dt C H N).alertLevel ∧
    (alertUpdate e player dt C H N).alertLevel ≤ 100 := by
  rw [alertUpdate.eq_def]
  dsimp only
  split_ifs with h1 hsn h2 h2
  · refine ⟨le_min (by norm_num) ?_, min_le_left _ _⟩
    show 0 ≤ e.alertLevel + 100 / 2 * dt
    have : 0 ≤ 100 / (2:ℝ) * dt := mul_nonneg (by norm_num) hdt
    linarith
  · refine ⟨le_min (by norm_num) ?_, min_le_left _ _⟩
    show 0 ≤ e.alertLevel + 100 / 0.8 * dt
    have : 0 ≤ 100 / (0.8:ℝ) * dt := mul_nonneg (by norm_num) hdt
    linarith
  · refine ⟨le_min (by norm_num) ?_, min_le_left _ _⟩
    show 0 ≤ e.alertLevel + 30 * dt
    have : 0 ≤ 30 * dt := mul_nonneg (by norm_num) hdt
    linarith
  · exact ⟨le_min (by norm_num) (le_max_left _ _), min_le_left _ _⟩

theorem updateEnemy_bound (enemy : Enemy) (player : Player) (grid : Grid)
    (config : GameConfig) (dt : ℝ) (noiseMarkers : List NoiseMarker)
    (hdt : 0 ≤ dt) (h0 : 0 ≤ enemy.alertLevel) (h100 : enemy.alertLevel ≤ 100) :
    (0 ≤ (updateEnemy enemy player grid config dt noiseMarkers).enemy.alertLevel ∧
      (updateEnemy enemy player grid config dt noiseMarkers).enemy.alertLevel ≤ 100) ∧
    (updateEnemy enemy player grid config dt noiseMarkers).enemy.health = enemy.health := by
  rw [updateEnemy]
  split_ifs with hdead
  · exact ⟨⟨h0, h100⟩, rfl⟩
  · dsimp only
    have hb := alertUpdate_bound
      { enemy with shootCooldown := max 0 (enemy.shootCooldown - dt) } player dt
      (inVisionCone { enemy with shootCooldown := max 0 (enemy.shootCooldown - dt) }
        player grid config)
      (canHear { enemy with shootCooldown := max 0 (enemy.shootCooldown - dt) } player config)
      (closestNoise { enemy with shootCooldown := max 0 (enemy.shootCooldown - dt) }
        config noiseMarkers) hdt h0
    have hf := enemyFSM_alert_health
      (alertUpdate { enemy with shootCooldown := max 0 (enemy.shootCooldown - dt) } player dt
        (inVisionCone { enemy with shootCooldown := max 0 (enemy.shootCooldown - dt) }
          player grid config)
        (canHear { enemy with shootCooldown := max 0 (enemy.shootCooldown - dt) } player config)
        (closestNoise { enemy with shootCooldown := max 0 (enemy.shootCooldown - dt) }
          config noiseMarkers))
      player grid config dt
      (inVisionCone { enemy with shootCooldown := max 0 (enemy.shootCooldown - dt) }
        player grid config)
      (distance enemy.pos player.pos) hb.1 hb.2
    refine ⟨hf.1, hf.2.trans ?_⟩
    exact (alertUpdate_preserves _ _ _ _ _ _).2.2.2.2.2.2.2.2.2.2.1

theorem forall2_enemy_refl (es : List Enemy) :
    List.Forall₂ (fun a b : Enemy => a.health ≤ b.health ∧ a.alertLevel = b.alertLevel) es es := by
  induction es with
  | nil => exact List.Forall₂.nil
  | cons e rest ih => exact List.Forall₂.cons ⟨le_refl _, rfl⟩ ih

theorem forall2_enemy_trans : ∀ {l1 l2 l3 : List Enemy},
    List.Forall₂ (fun a b : Enemy => a.health ≤ b.health ∧ a.alertLevel = b.alertLevel) l1 l2 →
    List.Forall₂ (fun a b : Enemy => a.health ≤ b.health ∧ a.alertLevel = b.alertLevel) l2 l3 →
    List.Forall₂ (fun a b : Enemy => a.health ≤ b.health ∧ a.alertLevel = b.alertLevel) l1 l3 := by
  intro l1 l2 l3 h12
  induction h12 generalizing l3 with
  | nil =>
    intro h23
    cases h23
    exact List.Forall₂.nil
  | cons ha ht ih =>
    intro h23
    cases h23 with
    | cons hb ht2 => exact List.Forall₂.cons ⟨le_trans ha.1 hb.1, ha.2.trans hb.2⟩ (ih ht2)

theorem forall2_alert_transfer : ∀ {l1 l2 : List Enemy},
    List.Forall₂ (fun a b : Enemy => a.health ≤ b.health ∧ a.alertLevel = b.alertLevel) l1 l2 →
    (∀ e ∈ l2, 0 ≤ e.alertLevel ∧ e.alertLevel ≤ 100) →
    ∀ e ∈ l1, 0 ≤ e.alertLevel ∧ e.alertLevel ≤ 100 := by
  intro l1 l2 h
  induction h with
  | nil =>
    intro _ e he
    exact absurd he (List.not_mem_nil e)
  | cons ha ht ih =>
    intro hb e he
    rcases List.mem_cons.mp he with h1 | h1
    · subst h1
      rw [ha.2]
      exact hb _ (List.mem_cons_self _ _)
    · exact ih (fun x hx => hb x (List.mem_cons_of_mem _ hx)) e h1

theorem enemyHitScan_rel (bpos : Vec2) (es : List Enemy) :
    List.Forall₂ (fun a b : Enemy => a.health ≤ b.health ∧ a.alertLevel = b.alertLevel)
      (enemyHitScan bpos es).1 es := by
  induction es with
  | nil =>
    rw [enemyHitScan]
    exact List.Forall₂.nil
  | cons e rest ih =>
    rw [enemyHitScan]
    dsimp only
    split_ifs
    · exact List.Forall₂.cons ⟨le_refl _, rfl⟩ ih
    · exact List.Forall₂.cons ⟨sub_le_self _ zero_le_one, rfl⟩ (forall2_enemy_refl rest)
    · exact List.Forall₂.cons ⟨sub_le_self _ zero_le_one, rfl⟩ (forall2_enemy_refl rest)
    · exact List.Forall₂.cons ⟨le_refl _, rfl⟩ ih

theorem bulletStep_bounds (st : GameState) (dt : ℝ) (b : Bullet) :
    (bulletStep st dt b).2.player.health ≤ st.player.health ∧
    List.Forall₂ (fun a b : Enemy => a.health ≤ b.health ∧ a.alertLevel = b.alertLevel)
      (bulletStep st dt b).2.enemies st.enemies := by
  rw [bulletStep]
  dsimp only
  split_ifs
  all_goals first
    | exact ⟨le_refl _, forall2_enemy_refl _⟩
    | exact ⟨le_refl _, enemyHitScan_rel _ _⟩
    | exact ⟨sub_le_self _ zero_le_one, forall2_enemy_refl _⟩

theorem bulletsLoop_bounds (dt : ℝ) (bs : List Bullet) :
    ∀ st : GameState,
    (bulletsLoop dt bs st).2.player.health ≤ st.player.health ∧
    List.Forall₂ (fun a b : Enemy => a.health ≤ b.health ∧ a.alertLevel = b.alertLevel)
      (bulletsLoop dt bs st).2.enemies st.enemies := by
  induction bs with
  | nil =>
    intro st
    exact ⟨le_refl _, forall2_enemy_refl _⟩
  | cons b rest ih =>
    intro st
    obtain ⟨h1, h2⟩ := ih st
    obtain ⟨g1, g2⟩ := bulletStep_bounds (bulletsLoop dt rest st).2 dt b
    rw [bulletsLoop]
    exact ⟨le_trans g1 h1, forall2_enemy_trans g2 h2⟩

theorem updateBullets_bounds (st : GameState) (dt : ℝ) :
    (updateBullets st dt).player.health ≤ st.player.health ∧
    (updateBullets st dt).player.maxHealth = st.player.maxHealth ∧
    List.Forall₂ (fun a b : Enemy => a.health ≤ b.health ∧ a.alertLevel = b.alertLevel)
      (updateBullets st dt).enemies st.enemies := by
  obtain ⟨h1, h2⟩ := bulletsLoop_bounds dt st.bullets st
  exact ⟨h1, (updateBullets_frame st dt).2.2.2.2.2, h2⟩

theorem enemyLoop_bounds (dt : ℝ) (hdt : 0 ≤ dt) (es : List Enemy) :
    ∀ (st : GameState) (md : ℝ),
    (∀ e ∈ es, 0 ≤ e.alertLevel ∧ e.alertLevel ≤ 100) →
    (∀ e ∈ (enemyLoop dt es st md).1, 0 ≤ e.alertLevel ∧ e.alertLevel ≤ 100) ∧
    (enemyLoop dt es st md).2.1.player.health ≤ st.player.health ∧
    (enemyLoop dt es st md).2.1.player.maxHealth = st.player.maxHealth ∧
    List.Forall₂ (fun a b : Enemy => a.health = b.health) (enemyLoop dt es st md).1 es := by
  induction es with
  | nil =>
    intro st md _
    exact ⟨fun e he => absurd he (List.not_mem_nil e), le_refl _, rfl, List.Forall₂.nil⟩
  | cons e rest ih =>
    intro st md hba
    have hbe := hba e (List.mem_cons_self _ _)
    have hbr : ∀ x ∈ rest, 0 ≤ x.alertLevel ∧ x.alertLevel ≤ 100 :=
      fun x hx => hba x (List.mem_cons_of_mem _ hx)
    rw [enemyLoop]
    by_cases hdead : e.isDead = true
    · rw [if_pos hdead]
      obtain ⟨ia, ih1, ih2, ir⟩ := ih st md hbr
      refine ⟨?_, ih1, ih2, List.Forall₂.cons rfl ir⟩
      intro x hx
      rcases List.mem_cons.mp hx with h1 | h1
      · rw [h1]
        exact hbe
      · exact ia x h1
    · rw [if_neg hdead]
      have hu := updateEnemy_bound e st.player st.grid st.config dt st.noiseMarkers
        hdt hbe.1 hbe.2
      dsimp only
      split_ifs
      all_goals
        refine ⟨?_, le_trans ((ih _ _ hbr).2.1) ?_, ((ih _ _ hbr).2.2.1).trans rfl,
          List.Forall₂.cons hu.2 ((ih _ _ hbr).2.2.2)⟩
      all_goals first
        | exact le_refl _
        | exact sub_le_self _ zero_le_one
        | (intro x hx
           rcases List.mem_cons.mp hx with h1 | h1
           · rw [h1]
             exact ⟨hu.1.1, hu.1.2⟩
           · exact (ih _ _ hbr).1 x h1)

theorem enemyPhase_bounds (st : GameState) (dt : ℝ) (hdt : 0 ≤ dt)
    (hba : ∀ e ∈ st.enemies, 0 ≤ e.alertLevel ∧ e.alertLevel ≤ 100) :
    (∀ e ∈ (enemyPhase st dt).enemies, 0 ≤ e.alertLevel ∧ e.alertLevel ≤ 100) ∧
    (enemyPhase st dt).player.health ≤ st.player.health ∧
    (enemyPhase st dt).player.maxHealth = st.player.maxHealth ∧
    List.Forall₂ (fun a b : Enemy => a.health = b.health) (enemyPhase st dt).enemies st.enemies := by
  obtain ⟨h1, h2, h3, h4⟩ := enemyLoop_bounds dt hdt st.enemies st 0 hba
  exact ⟨h1, h2, h3, h4⟩

theorem winCheck_frame (st : GameState) :
    (winCheck st).player = st.player ∧ (winCheck st).enemies = st.enemies := by
  rw [winCheck]
  split_ifs
  · exact ⟨rfl, rfl⟩
  · exact ⟨rfl, rfl⟩

theorem pickupLoop_health : ∀ (pks : List AmmoPickup) (p : Player),
    (pickupLoop pks p).2.health = p.health ∧ (pickupLoop pks p).2.maxHealth = p.maxHealth := by
  intro pks
  induction pks with
  | nil =>
    intro p
    exact ⟨rfl, rfl⟩
  | cons pk rest ih =>
    intro p
    rw [pickupLoop]
    dsimp only
    split_ifs
    · exact ih p
    · exact ih { p with ammo := min (p.ammo + pk.amount) p.maxAmmo }
    · exact ih p

theorem pickupPhase_bounds (st : GameState) :
    (pickupPhase st).player.health = st.player.health ∧
    (pickupPhase st).player.maxHealth = st.player.maxHealth ∧
    (pickupPhase st).enemies = st.enemies := by
  obtain ⟨h1, h2⟩ := pickupLoop_health st.ammoPickups st.player
  exact ⟨h1, h2, rfl⟩

theorem getLinePoints_same : getLinePoints 1 1 1 1 = [(1, 1)] := by
  rw [getLinePoints, bresAux.eq_def]
  norm_num

theorem hasLineOfSight_same : hasLineOfSight gridTest ⟨1.5, 1.5⟩ ⟨1.5, 1.5⟩ := by
  rw [hasLineOfSight]
  have h15 : ⌊(1.5:ℝ)⌋ = 1 := by norm_num
  simp only [h15, getLinePoints_same]
  intro p hp
  simp at hp

theorem isWalkable_gridTest_mid (x y : ℝ) (hx : ⌊x⌋ = 1) (hy : ⌊y⌋ = 1) :
    isWalkable gridTest x y := by
  rw [isWalkable, hx, hy]
  refine ⟨by norm_num, ?_, by norm_num, ?_, by decide⟩
  · rw [show gridTest.length = 3 from rfl]
    norm_num
  · rw [show rowLen gridTest = 3 from rfl]
    norm_num

theorem canMoveTo_center : canMoveTo gridTest ⟨1.5, 1.5⟩ ⟨1.5, 1.5⟩ 0.35 := by
  refine (canMoveTo_iff_corners gridTest ⟨1.5, 1.5⟩ ⟨1.5, 1.5⟩ 0.35).mpr ?_
  refine ⟨isWalkable_gridTest_mid _ _ ?_ ?_, isWalkable_gridTest_mid _ _ ?_ ?_,
    isWalkable_gridTest_mid _ _ ?_ ?_, isWalkable_gridTest_mid _ _ ?_ ?_⟩ <;>
    norm_num

theorem normalize_zero : normalize ⟨0, 0⟩ = (⟨0, 0⟩ : Vec2) := by
  rw [normalize]
  norm_num

theorem moveToward_zero (e : Enemy) (dt : ℝ) (hep : e.pos = ⟨1.5, 1.5⟩) :
    moveToward e ⟨1.5, 1.5⟩ gridTest dt = { e with pos := ⟨1.5, 1.5⟩ } := by
  rw [moveToward]
  dsimp only
  rw [hep]
  dsimp only
  rw [show (1.5:ℝ) - 1.5 = 0 by norm_num]
  rw [normalize_zero]
  dsimp only
  rw [if_neg (by simp)]
  rw [hep]
  dsimp only
  rw [show (1.5:ℝ) + 0 * e.speed * dt = 1.5 by ring]
  rw [resolveCollision, if_pos canMoveTo_center]

theorem inVisionCone_same_tile (e : Enemy) (p : Player) (hep : e.pos = ⟨1.5, 1.5⟩)
    (hea : e.angle = 0) (hpp : p.pos = ⟨1.5, 1.5⟩) (hps : p.isSneaking = false) :
    inVisionCone e p gridTest DEFAULT_CONFIG := by
  refine ⟨?_, ?_, ?_⟩
  · show distance e.pos p.pos ≤ effectiveVisionRange p DEFAULT_CONFIG
    rw [hep, hpp, distance_self, effectiveVisionRange, hps]
    rw [if_neg (by simp)]
    rw [show DEFAULT_CONFIG.visionRange = (6:ℝ) from rfl]
    norm_num
  · show |angleDifference e.angle (angleBetween e.pos p.pos)| ≤
      degToRad (DEFAULT_CONFIG.visionAngle / 2)
    have hab : angleBetween (⟨1.5, 1.5⟩ : Vec2) ⟨1.5, 1.5⟩ = 0 := by
      rw [angleBetween]
      dsimp only
      rw [show (1.5:ℝ) - 1.5 = 0 by norm_num]
      exact atan2_zero_nonneg 0 le_rfl
    rw [hea, hep, hpp, hab, angleDifference, sub_zero, normalizeAngle_zero, abs_zero]
    rw [show DEFAULT_CONFIG.visionAngle = (120:ℝ) from rfl, degToRad]
    positivity
  · show hasLineOfSight gridTest e.pos p.pos
    rw [hep, hpp]
    exact hasLineOfSight_same

theorem updateEnemy_melee (e : Enemy) (p : Player)
    (hpp : p.pos = ⟨1.5, 1.5⟩) (hps : p.isSneaking = false)
    (hepos : e.pos = ⟨1.5, 1.5⟩) (hea : e.angle = 0) (hest : e.state = EnemyState.CHASE)
    (heal : e.alertLevel = 100) (hesc : e.shootCooldown = 0)
    (hammo : e.ammo = 0) (hed : e.isDead = false) :
    (updateEnemy e p gridTest DEFAULT_CONFIG 1 []).enemy =
      { e with pos := ⟨1.5, 1.5⟩, alertLevel := 100, shootCooldown := 0, ammo := 0,
               lastKnownPlayerPos := some ⟨1.5, 1.5⟩,
               stateTimer := DEFAULT_CONFIG.chaseDuration } := by
  have hcone : inVisionCone { e with shootCooldown := (0:ℝ) } p gridTest DEFAULT_CONFIG :=
    inVisionCone_same_tile { e with shootCooldown := (0:ℝ) } p hepos hea hpp hps
  have hau : alertUpdate { e with shootCooldown := (0:ℝ) } p 1
      (inVisionCone { e with shootCooldown := (0:ℝ) } p gridTest DEFAULT_CONFIG)
      (canHear { e with shootCooldown := (0:ℝ) } p DEFAULT_CONFIG)
      (closestNoise { e with shootCooldown := (0:ℝ) } DEFAULT_CONFIG []) =
      { e with shootCooldown := 0, alertLevel := 100,
               lastKnownPlayerPos := some ⟨1.5, 1.5⟩ } := by
    rw [alertUpdate.eq_def]
    dsimp only
    rw [if_pos hcone]
    dsimp only
    rw [hps]
    rw [if_neg (by simp)]
    rw [heal]
    rw [show (100:ℝ) + 100 / 0.8 * 1 = 225 by norm_num]
    rw [show min (100:ℝ) 225 = 100 by norm_num]
    rw [hpp]
  rw [updateEnemy]
  rw [if_neg (by rw [hed]; simp)]
  dsimp only
  rw [hesc]
  rw [show max (0:ℝ) (0 - 1) = 0 from by rw [max_eq_left (by norm_num)]]
  rw [hau]
  rw [enemyFSM_chase { e with shootCooldown := (0:ℝ), alertLevel := (100:ℝ),
                              lastKnownPlayerPos := some ⟨1.5, 1.5⟩ } p gridTest DEFAULT_CONFIG 1
      (inVisionCone { e with shootCooldown := (0:ℝ) } p gridTest DEFAULT_CONFIG)
      (distance e.pos p.pos) hest]
  dsimp only
  rw [if_pos hcone]
  dsimp only
  rw [if_neg (by rw [show DEFAULT_CONFIG.chaseDuration = (4:ℝ) from rfl]; norm_num)]
  rw [chaseBehavior]
  dsimp only [Option.getD]
  rw [moveToward_zero { e with shootCooldown := (0:ℝ), alertLevel := (100:ℝ),
                               lastKnownPlayerPos := some ⟨1.5, 1.5⟩,
                               stateTimer := DEFAULT_CONFIG.chaseDuration } 1
      hepos]
  rw [hammo]

theorem enemyLoop_melee_health (e : Enemy) (rest : List Enemy) (st : GameState) (md : ℝ)
    (hepos : e.pos = ⟨1.5, 1.5⟩) (hea : e.angle = 0) (hest : e.state = EnemyState.CHASE)
    (heal : e.alertLevel = 100) (hesc : e.shootCooldown = 0) (hammo : e.ammo = 0)
    (hed : e.isDead = false)
    (hstg : st.grid = gridTest) (hstc : st.config = DEFAULT_CONFIG)
    (hstn : st.noiseMarkers = []) (hpp : st.player.pos = ⟨1.5, 1.5⟩)
    (hps : st.player.isSneaking = false) :
    (enemyLoop 1 (e :: rest) st md).2.1.player.health =
      (enemyLoop 1 rest
        { st with player := { st.player with health := st.player.health - 1 },
                  isGameOver := if st.player.health - 1 ≤ 0 then true else st.isGameOver }
        (max md (updateEnemy e st.player gridTest DEFAULT_CONFIG 1 []).alertLevel)).2.1.player.health := by
  have hu := updateEnemy_melee e st.player hpp hps hepos hea hest heal hesc hammo hed
  rw [enemyLoop]
  rw [if_neg (show ¬(e.isDead = true) by rw [hed]; simp)]
  dsimp only
  rw [hstg, hstc, hstn]
  rw [if_neg (show
      ¬((updateEnemy e st.player gridTest DEFAULT_CONFIG 1 []).shouldShoot ∧
        (updateEnemy e st.player gridTest DEFAULT_CONFIG 1 []).enemy.ammo > 0 ∧
        (updateEnemy e st.player gridTest DEFAULT_CONFIG 1 []).enemy.shootCooldown ≤ 0)
      from fun hcon => absurd hcon.2.1 (by rw [hu]; norm_num))]
  dsimp only
  rw [if_pos (show
      distance (updateEnemy e st.player
          gridTest DEFAULT_CONFIG 1 []).enemy.pos st.player.pos < 0.8 ∧
      (updateEnemy e st.player gridTest DEFAULT_CONFIG 1 []).enemy.alertLevel ≥ 100
      from ⟨by
        rw [hu]
        dsimp only
        rw [hpp, distance_self]
        norm_num,
      by
        rw [hu]⟩)]
  rw [hstg, hstc, hstn]

theorem enemyLoop_meleeState :
    (enemyLoop 1 [meleeEnemy, { meleeEnemy with id := 2 }] meleeState 0).2.1.player.health
      = -1 := by
  refine (enemyLoop_melee_health meleeEnemy _ meleeState 0
    rfl rfl rfl rfl rfl rfl rfl rfl rfl rfl rfl rfl).trans ?_
  refine (enemyLoop_melee_health _ _ _ _
    rfl rfl rfl rfl rfl rfl rfl rfl rfl rfl rfl rfl).trans ?_
  rw [enemyLoop]
  show meleeState.player.health - 1 - 1 = -1
  rw [show meleeState.player.health = (1:ℝ) from rfl]
  norm_num

theorem updatePlayer_meleeState : updatePlayer meleeState idleInput 1 = meleeState := by
  rw [updatePlayer_idle]
  have hmax : max 0 (meleeState.player.shootCooldown - 1) = 0 := by
    rw [show meleeState.player.shootCooldown = 0 from rfl]
    rw [max_eq_left (by norm_num)]
  rw [hmax]
  rfl

/-- Counterexample to claim C8 as stated: with two fully alerted melee
enemies standing on a one-health player, one tick of updateGame drives
the player's health to -1; health is never clamped at 0, so it does not
stay in [0, maxHealth]. -/
theorem updateGame_meleeState_health :
    (updateGame meleeState idleInput 1).player.health = -1 ∧
    (updateGame meleeState idleInput 1).player.health < 0 := by
  have h1 : (updateGame meleeState idleInput 1).player.health = -1 := by
    rw [updateGame_run meleeState idleInput 1 rfl rfl rfl]
    rw [updatePlayer_meleeState]
    rw [noisePhase_noMarkers meleeState 1 rfl, updateBullets_noBullets meleeState 1 rfl]
    rw [(pickupPhase_bounds _).1]
    rw [(winCheck_frame _).1]
    rw [enemyPhase]
    dsimp only
    rw [show meleeState.enemies = [meleeEnemy, { meleeEnemy with id := 2 }] from rfl]
    exact enemyLoop_meleeState
  refine ⟨h1, ?_⟩
  rw [h1]
  norm_num

theorem forall2_health_le_trans : ∀ {l1 l2 l3 : List Enemy},
    List.Forall₂ (fun a b : Enemy => a.health ≤ b.health) l1 l2 →
    List.Forall₂ (fun a b : Enemy => a.health ≤ b.health) l2 l3 →
    List.Forall₂ (fun a b : Enemy => a.health ≤ b.health) l1 l3 := by
  intro l1 l2 l3 h12
  induction h12 generalizing l3 with
  | nil =>
    intro h23
    cases h23
    exact List.Forall₂.nil
  | cons ha ht ih =>
    intro h23
    cases h23 with
    | cons hb ht2 => exact List.Forall₂.cons (le_trans ha hb) (ih ht2)

/-- Claim C8 (amended): on every tick with a nonnegative time step,
starting from enemy alert levels in [0, 100], the tick keeps every
enemy's alert level in [0, 100]; the player's health never increases and
the player's maximum health is unchanged, and every surviving enemy's
health is bounded by its pre-tick value (positionally along the enemy
list, whose length the tick preserves).  The claimed lower bound 0 on
health is false: no damage write clamps at zero, so health can leave
[0, maxHealth] (see the counterexample). -/
theorem updateGame_bounds_amended (state : GameState) (input : InputState) (dt : ℝ)
    (hdt : 0 ≤ dt)
    (hba : ∀ e ∈ state.enemies, 0 ≤ e.alertLevel ∧ e.alertLevel ≤ 100) :
    (∀ e ∈ (updateGame state input dt).enemies, 0 ≤ e.alertLevel ∧ e.alertLevel ≤ 100) ∧
    (updateGame state input dt).player.health ≤ state.player.health ∧
    (updateGame state input dt).player.maxHealth = state.player.maxHealth ∧
    List.Forall₂ (fun a b : Enemy => a.health ≤ b.health)
      (updateGame state input dt).enemies state.enemies := by
  rw [updateGame]
  split_ifs with hskip
  · exact ⟨hba, le_refl _, rfl, List.forall₂_same.mpr (fun x _ => le_refl _)⟩
  · have hAe : (updatePlayer state input dt).enemies = state.enemies :=
      (updatePlayer_frame state input dt).1
    have hAh : (updatePlayer state input dt).player.health = state.player.health :=
      (updatePlayer_frame state input dt).2.2.2.2.2.2.1
    have hAm : (updatePlayer state input dt).player.maxHealth = state.player.maxHealth :=
      (updatePlayer_frame state input dt).2.2.2.2.2.2.2
    have hBe : (noisePhase (updatePlayer state input dt) dt).enemies = state.enemies := hAe
    have hBh : (noisePhase (updatePlayer state input dt) dt).player.health
        = state.player.health := hAh
    have hBm : (noisePhase (updatePlayer state input dt) dt).player.maxHealth
        = state.player.maxHealth := hAm
    obtain ⟨hCh, hCm, hCrel⟩ :=
      updateBullets_bounds (noisePhase (updatePlayer state input dt) dt) dt
    rw [hBe] at hCrel
    have hCba : ∀ e ∈ (updateBullets (noisePhase (updatePlayer state input dt) dt) dt).enemies,
        0 ≤ e.alertLevel ∧ e.alertLevel ≤ 100 := forall2_alert_transfer hCrel hba
    obtain ⟨hDa, hDh, hDm, hDrel⟩ :=
      enemyPhase_bounds (updateBullets (noisePhase (updatePlayer state input dt) dt) dt) dt
        hdt hCba
    obtain ⟨hEp, hEe⟩ :=
      winCheck_frame
        (enemyPhase (updateBullets (noisePhase (updatePlayer state input dt) dt) dt) dt)
    obtain ⟨hFh, hFm, hFe⟩ :=
      pickupPhase_bounds (winCheck (enemyPhase (updateBullets (noisePhase
        (updatePlayer state input dt) dt) dt) dt))
    refine ⟨?_, ?_, ?_, ?_⟩
    · rw [hFe, hEe]
      exact hDa
    · rw [hFh, hEp]
      exact le_trans hDh (le_trans hCh (le_of_eq hBh))
    · rw [hFm, hEp, hDm, hCm, hBm]
    · rw [hFe, hEe]
      exact forall2_health_le_trans (hDrel.imp (fun a b h => le_of_eq h))
        (hCrel.imp (fun a b h => h.1))

/-- Witness for the amended claim C8: one quiet tick from baseState
keeps the dead enemy's alert level in range and does not increase the
player's or the enemy's health. -/
theorem updateGame_bounds_amended_witness :
    ((0:ℝ) ≤ 1/10 ∧ ∀ e ∈ baseState.enemies, 0 ≤ e.alertLevel ∧ e.alertLevel ≤ 100) ∧
    (updateGame baseState idleInput (1/10)).player.health ≤ baseState.player.health ∧
    List.Forall₂ (fun a b : Enemy => a.health ≤ b.health)
      (updateGame baseState idleInput (1/10)).enemies baseState.enemies := by
  have hba : ∀ e ∈ baseState.enemies, 0 ≤ e.alertLevel ∧ e.alertLevel ≤ 100 := by
    intro e he
    rw [show baseState.enemies = [deadEnemy] from rfl, List.mem_singleton] at he
    rw [he]
    refine ⟨le_of_eq (by rfl), ?_⟩
    rw [show deadEnemy.alertLevel = (0:ℝ) from rfl]
    norm_num
  exact ⟨⟨by norm_num, hba⟩,
    (updateGame_bounds_amended baseState idleInput (1/10) (by norm_num) hba).2.1,
    (updateGame_bounds_amended baseState idleInput (1/10) (by norm_num) hba).2.2.2⟩

end Cornerlight
